import Mathlib

/-!
# Vibration controller: mode arbitration and chunked audio streaming

Shallow embedding of `src/doki_esp32_bluetooth_vibration_controller.cpp`.

* The global variables of the translation unit are the fields of `State`.
* Every C++ function is a Lean function `State → ... → Option State`; the
  result is `none` exactly where the C++ has no defined result (a read past
  the end of a buffer, `delete[]` of an already released buffer,
  `new char[n]` with negative `n`).
* The external collaborators (haptic driver `drv`, sample renderer
  `dacAudio`, the two hardware timers, the Bluetooth transport, the heap)
  are recorded at their interface: the calls made on them are logged in
  order, and the part of their state the controller depends on is kept in
  `State`.
* `int32_t`/`int` values are `Int`, with explicit wrapping where the C++
  converts between integer types; bytes are `Fin 256`.
-/

namespace Doki

/-! ## Machine integers and byte buffers -/

/-- One byte of storage (`char` / `uint8_t`). -/
abbrev Byte := Fin 256

/-- Conversion of an integer to `int32_t` (two's complement wrap). -/
def toInt32 (n : Int) : Int := (n + 2147483648) % 4294967296 - 2147483648

/-- Conversion of an integer to `int16_t` (two's complement wrap). -/
def toInt16 (n : Int) : Int := (n + 32768) % 65536 - 32768

/-- Conversion of an integer to `uint8_t`. -/
def toUInt8 (n : Int) : Nat := (n % 256).toNat

/-- Conversion of an integer to `size_t` (32 bit on the target). -/
def toUInt32 (n : Int) : Nat := (n % 4294967296).toNat

/-- Conversion of an integer to `uint64_t` (the alarm value of a timer). -/
def toUInt64 (n : Int) : Nat := (n % 18446744073709551616).toNat

/-- Conversion of a plain `char` to `int`. The plain `char` of the ESP32
toolchains is unsigned, so the value is the byte itself. -/
def charToInt (b : Byte) : Int := (b.val : Int)

/-- Load through `(int32_t*)(data + off)`: four bytes, little endian. -/
def readInt32 (data : List Byte) (off : Nat) : Option Int :=
  match data[off]?, data[off + 1]?, data[off + 2]?, data[off + 3]? with
  | some b0, some b1, some b2, some b3 =>
      some (toInt32 ((b0.val : Int) + 256 * (b1.val : Int) + 65536 * (b2.val : Int)
        + 16777216 * (b3.val : Int)))
  | _, _, _, _ => none

/-- Load through `(int16_t*)(data + off)`: two bytes, little endian. -/
def readInt16 (data : List Byte) (off : Nat) : Option Int :=
  match data[off]?, data[off + 1]? with
  | some b0, some b1 => some (toInt16 ((b0.val : Int) + 256 * (b1.val : Int)))
  | _, _ => none

/-- The four bytes of an `int32_t` object, little endian. -/
def int32Bytes (v : Int) : List Byte :=
  let u := toUInt32 v
  [⟨u % 256, Nat.mod_lt _ (by decide)⟩, ⟨u / 256 % 256, Nat.mod_lt _ (by decide)⟩,
   ⟨u / 65536 % 256, Nat.mod_lt _ (by decide)⟩, ⟨u / 16777216 % 256, Nat.mod_lt _ (by decide)⟩]

/-! ## Constants -/

/-- The source macro `BUFFER_SIZE`. -/
def BUFFER_SIZE : Nat := 100

/-- The source macro `CHUNK_QUEUE_TARGET_SIZE`. -/
def CHUNK_QUEUE_TARGET_SIZE : Int := 5

/-- The source macro `BIT_AC_COUPLE`. -/
def BIT_AC_COUPLE : Nat := 0x20

/-- The source macro `BIT_N_PWM_ANALOG`. -/
def BIT_N_PWM_ANALOG : Nat := 0xA3

/-- Modelled from the spec: the macro `DRV2605_MODE_INTTRIG` of the driver
header, which is not part of the repository; the triggered mode of the
actuator. The development uses only that the three mode numbers differ. -/
def DRV2605_MODE_INTTRIG : Nat := 0x00

/-- Modelled from the spec: the macro `DRV2605_MODE_AUDIOVIBE` of the driver
header; the audio-coupled drive mode. -/
def DRV2605_MODE_AUDIOVIBE : Nat := 0x04

/-- Modelled from the spec: the macro `DRV2605_MODE_REALTIME` of the driver
header; the realtime-drive mode. -/
def DRV2605_MODE_REALTIME : Nat := 0x05

/-- Modelled from the spec: the macro `DRV2605_REG_CONTROL1` of the driver
header; the first coupling register. The development uses only that the two
register numbers differ. -/
def DRV2605_REG_CONTROL1 : Nat := 0x1B

/-- Modelled from the spec: the macro `DRV2605_REG_CONTROL3` of the driver
header; the second coupling register. -/
def DRV2605_REG_CONTROL3 : Nat := 0x1D

/-- The source macro `REG_AC_COUPLE`. -/
def REG_AC_COUPLE : Nat := DRV2605_REG_CONTROL1

/-- The source macro `REG_N_PWM_ANALOG`. -/
def REG_N_PWM_ANALOG : Nat := DRV2605_REG_CONTROL3

/-- Value of `PacketType::Test`. -/
def PacketType.Test : Int := 1

/-- Value of `PacketType::Status`. -/
def PacketType.Status : Int := 2

/-- Value of `PacketType::VibrationEffect`. -/
def PacketType.VibrationEffect : Int := 3

/-- Value of `PacketType::VibrationPattern`. -/
def PacketType.VibrationPattern : Int := 4

/-- Value of `PacketType::VibrationSound`. -/
def PacketType.VibrationSound : Int := 5

/-- Value of `PacketType::VibrationSoundRequest`. -/
def PacketType.VibrationSoundRequest : Int := 6

/-- Value of `PacketType::VibrationRealtime`. -/
def PacketType.VibrationRealtime : Int := 7

/-- Value of `PatternStatus::Play`. -/
def PatternStatus.Play : Int := 1

/-- Value of `PatternStatus::Stop`. -/
def PatternStatus.Stop : Int := 2

/-- Value of `PatternStatus::Resume`. -/
def PatternStatus.Resume : Int := 3

/-! ## Data model -/

/-- Embeds `class WavChunk`; `playing` is the `Playing` flag of the renderer item
`wav` built over `wavData`. -/
structure WavChunk where
  soundId : Int
  chunkId : Int
  wavData : List Byte
  playing : Bool
deriving DecidableEq, Repr

/-- Value of the global `char* currentPattern`: the null pointer, a pointer
to a live buffer with the given contents, or a non-null pointer whose buffer
has been released by `delete[]`. -/
inductive PatternPtr where
  | null
  | live (buf : List Byte)
  | dangling
deriving DecidableEq, Repr

/-- Calls on the haptic driver object `drv`. -/
inductive DrvCall where
  | setMode (m : Nat)
  | stop
  | go
  | setWaveform (slot w : Nat)
  | setRealtimeValue (v : Nat)
  | writeRegister8 (reg val : Nat)
deriving DecidableEq, Repr

/-- Modelled from the spec: the haptic waveform driver is an external
collaborator (it accepts mode switches, waveform-slot writes, a trigger
command and a realtime value, and exposes register read and write). Its
state: operating mode, the waveform sequencer slots (indexed by the `uint8_t`
slot argument), the trigger bit, the realtime input value and the control
registers written by `writeRegister8`. -/
structure Drv where
  mode : Nat
  waveform : Nat → Nat
  goBit : Bool
  rtp : Nat
  regs : Nat → Nat

/-- Calls on the sample renderer object `dacAudio`. -/
inductive DacCall where
  | fillBuffer
  | play (soundId chunkId : Int)
  | stopAllSounds
deriving DecidableEq, Repr

/-- Modelled from the spec: a periodic hardware timer alarm (`hw_timer_t`)
with its alarm value, written by `timerAlarmWrite`, and its enable bit, set
by `timerAlarmEnable` and cleared by `timerAlarmDisable`. -/
structure Timer where
  alarmValue : Nat
  autoreload : Bool
  enabled : Bool
deriving DecidableEq, Repr

/-- The global variables of the program together with the state of its
external collaborators. -/
structure State where
  chunkQueue : List WavChunk
  audioMode : Bool
  chunkBufferTimer : Timer
  audioPlaybackTimer : Timer
  exitAudiomodeFlag : Bool
  regACCouple : Nat
  regPWMAnalog : Nat
  patternMode : Bool
  currentPattern : PatternPtr
  patternIt : Int
  patternLength : Int
  playNextPatternFlag : Bool
  realTimeMode : Bool
  it1 : Int
  it2 : Int
  drv : Drv
  drvCalls : List DrvCall
  dacCalls : List DacCall
  btIn : List Byte
  btWrites : List (List Byte)
  serialLines : Nat
  allocs : Nat
  frees : Nat

/-! ## External collaborators -/

/-- Modelled from the spec: driver call `drv.setMode(m)`, an actuator mode
switch. -/
def drvSetMode (s : State) (m : Nat) : State :=
  { s with drv := { s.drv with mode := m }, drvCalls := s.drvCalls ++ [DrvCall.setMode m] }

/-- Modelled from the spec: driver call `drv.stop()`, the actuator is
stopped (trigger bit cleared). -/
def drvStop (s : State) : State :=
  { s with drv := { s.drv with goBit := false }, drvCalls := s.drvCalls ++ [DrvCall.stop] }

/-- Modelled from the spec: driver call `drv.go()`, the trigger command
(trigger bit set). -/
def drvGo (s : State) : State :=
  { s with drv := { s.drv with goBit := true }, drvCalls := s.drvCalls ++ [DrvCall.go] }

/-- Modelled from the spec: driver call `drv.setWaveform(slot, w)`, a
waveform-slot write. -/
def drvSetWaveform (s : State) (slot w : Nat) : State :=
  { s with
    drv := { s.drv with waveform := fun j => if j = slot then w else s.drv.waveform j },
    drvCalls := s.drvCalls ++ [DrvCall.setWaveform slot w] }

/-- Modelled from the spec: driver call `drv.setRealtimeValue(v)`, the raw
realtime drive value. -/
def drvSetRealtimeValue (s : State) (v : Nat) : State :=
  { s with drv := { s.drv with rtp := v }, drvCalls := s.drvCalls ++ [DrvCall.setRealtimeValue v] }

/-- Modelled from the spec: driver call `drv.writeRegister8(reg, val)`, a
register write. -/
def drvWriteRegister8 (s : State) (reg val : Nat) : State :=
  { s with
    drv := { s.drv with regs := fun r => if r = reg then val else s.drv.regs r },
    drvCalls := s.drvCalls ++ [DrvCall.writeRegister8 reg val] }

/-- Modelled from the spec: renderer call `dacAudio.FillBuffer()`. -/
def dacFillBuffer (s : State) : State :=
  { s with dacCalls := s.dacCalls ++ [DacCall.fillBuffer] }

/-- Modelled from the spec: renderer call
`dacAudio.Play(chunkQueue.front().wav)`; the renderer takes the item of the
front chunk, whose "currently playing" flag becomes true. With an empty queue
`front()` has no defined result. -/
def dacPlayFront (s : State) : Option State :=
  match s.chunkQueue with
  | [] => none
  | c :: rest =>
      some { s with
        chunkQueue := { c with playing := true } :: rest,
        dacCalls := s.dacCalls ++ [DacCall.play c.soundId c.chunkId] }

/-- Modelled from the spec: renderer call `dacAudio.StopAllSounds()`; no
item is playing afterwards. -/
def dacStopAllSounds (s : State) : State :=
  { s with
    chunkQueue := s.chunkQueue.map (fun c => { c with playing := false }),
    dacCalls := s.dacCalls ++ [DacCall.stopAllSounds] }

/-- Debug output `Serial.println(...)`: one more line printed. -/
def serialPrintln (s : State) : State :=
  { s with serialLines := s.serialLines + 1 }

/-- Embeds `serialPrintlnf`: formats into a freshly allocated buffer, prints one
line and releases the buffer. -/
def serialPrintlnf (s : State) : State :=
  let s1 := { s with allocs := s.allocs + 1 }
  let s2 := serialPrintln s1
  { s2 with frees := s2.frees + 1 }

/-- The body of a loop `for (int i = lo; i < hi; i++) body(i)`, run for the
`n = hi - lo` iterations the loop makes (none when `hi <= lo`). -/
def forRange (body : Int → State → Option State) : Int → Nat → State → Option State
  | _, 0, s => some s
  | lo, n + 1, s =>
      match body lo s with
      | none => none
      | some s1 => forRange body (lo + 1) n s1

/-! ## The program -/

/-- Embeds `playVibrationEffects(count, values)`. -/
def playVibrationEffects (s : State) (count : Int) (values : List Byte) : Option State :=
  if count > 8 then some s
  else
    let s1 := drvStop s
    let loop1 := forRange
      (fun i t =>
        match values[i.toNat]? with
        | none => none
        | some v => some (serialPrintlnf (drvSetWaveform t (toUInt8 i) v.val)))
      0 count.toNat s1
    match loop1 with
    | none => none
    | some s2 =>
        let loop2 :=
          if count < 8 then
            forRange (fun i t => some (drvSetWaveform t (toUInt8 i) 0)) count (8 - count).toNat s2
          else some s2
        match loop2 with
        | none => none
        | some s3 => some (drvGo s3)

/-- Embeds `playVibrationEffect(effectId)`. -/
def playVibrationEffect (s : State) (effectId : Nat) : State :=
  drvGo (drvSetWaveform (drvSetWaveform (drvStop s) 0 effectId) 1 0)

/-- Embeds `handleVibrationPacket(data)`. -/
def handleVibrationPacket (s : State) (data : List Byte) : Option State :=
  match readInt32 data 0 with
  | none => none
  | some length =>
      let s1 := { s with realTimeMode := false }
      let s2 := drvSetMode s1 DRV2605_MODE_INTTRIG
      playVibrationEffects s2 length (data.drop 4)

/-- Embeds `handleRealtime(data)`. -/
def handleRealtime (s : State) (data : List Byte) : Option State :=
  match readInt16 data 0 with
  | none => none
  | some rawValue =>
      let value := toUInt8 rawValue
      let s1 := serialPrintlnf s
      let s2 :=
        if !s1.realTimeMode then
          { drvSetMode s1 DRV2605_MODE_REALTIME with realTimeMode := true }
        else s1
      some (drvSetRealtimeValue s2 value)

/-- Embeds `handleTestPacket(data)`: prints the length field and the
NUL-terminated string that follows it. -/
def handleTestPacket (s : State) (data : List Byte) : Option State :=
  match readInt32 data 0 with
  | none => none
  | some _ =>
      let s1 := serialPrintlnf s
      if (0 : Byte) ∈ data.drop 4 then some (serialPrintln s1) else none

/-- Embeds `getPatternSplitTime(data)`. -/
def getPatternSplitTime (data : List Byte) : Option Byte :=
  ((data.drop 4).drop 1)[0]?

/-- Embeds `deletePattern()`. -/
def deletePattern (s : State) : Option State :=
  match s.currentPattern with
  | PatternPtr.null => some s
  | PatternPtr.live _ =>
      some { s with
        currentPattern := PatternPtr.dangling, frees := s.frees + 1,
        patternIt := 1, patternLength := 0 }
  | PatternPtr.dangling => none

/-- Embeds `replacePattern(data)`. -/
def replacePattern (s : State) (data : List Byte) : Option State :=
  match deletePattern s with
  | none => none
  | some s1 =>
      match readInt32 data 0 with
      | none => none
      | some length =>
          let data1 := data.drop 4
          if length < 0 then none
          else if data1.length < length.toNat then none
          else
            some { s1 with
              patternLength := length,
              currentPattern := PatternPtr.live (data1.take length.toNat),
              allocs := s1.allocs + 1 }

/-- Embeds `handleVibrationSoundRequest(data)`. -/
def handleVibrationSoundRequest (s : State) (data : List Byte) : Option State :=
  match readInt32 data 0 with
  | none => none
  | some requestType =>
      if requestType = 2 then
        let s1 := { s with chunkBufferTimer := { s.chunkBufferTimer with enabled := false } }
        let s2 := { s1 with audioPlaybackTimer := { s1.audioPlaybackTimer with enabled := false } }
        let s3 := dacStopAllSounds s2
        let s4 := drvSetMode s3 DRV2605_MODE_INTTRIG
        let s5 := drvWriteRegister8 s4 REG_AC_COUPLE s4.regACCouple
        let s6 := drvWriteRegister8 s5 REG_N_PWM_ANALOG s5.regPWMAnalog
        some { s6 with
          audioMode := false,
          frees := s6.frees + 2 * s6.chunkQueue.length,
          chunkQueue := [] }
      else some s

/-- Embeds `handleVibrationPatternPacket(data)`. -/
def handleVibrationPatternPacket (s : State) (data : List Byte) : Option State :=
  match readInt32 data 0 with
  | none => none
  | some status =>
      let data1 := data.drop 4
      if status = PatternStatus.Play then
        let s1 := { s with patternMode := true }
        match replacePattern s1 data1 with
        | none => none
        | some s2 =>
            match getPatternSplitTime data1 with
            | none => none
            | some split =>
                let timerIntervalMs := charToInt split
                let s3 := { s2 with
                  audioPlaybackTimer :=
                    { s2.audioPlaybackTimer with
                      alarmValue := toUInt64 (timerIntervalMs * 1000), autoreload := true } }
                let s4 := drvSetMode s3 DRV2605_MODE_REALTIME
                let r :=
                  if s4.audioMode then handleVibrationSoundRequest s4 (int32Bytes 2)
                  else some s4
                match r with
                | none => none
                | some s5 =>
                    some { s5 with
                      audioPlaybackTimer := { s5.audioPlaybackTimer with enabled := true } }
      else if status = PatternStatus.Stop then
        some { s with audioPlaybackTimer := { s.audioPlaybackTimer with enabled := false } }
      else if status = PatternStatus.Resume then
        if s.currentPattern = PatternPtr.null then some s
        else
          let s1 := { s with patternMode := true }
          let s2 := drvSetMode s1 DRV2605_MODE_REALTIME
          some { s2 with audioPlaybackTimer := { s2.audioPlaybackTimer with enabled := true } }
      else some s

/-- Second block of `handleVibrationSound` (the `realTimeMode` and
`patternMode` tests): realtime and pattern mode are left. -/
def soundLeaveOtherModes (s2 : State) : Option State :=
  let s3 := if s2.realTimeMode then { s2 with realTimeMode := false } else s2
  if s3.patternMode then
    match deletePattern s3 with
    | none => none
    | some t => some { t with patternMode := false }
  else some s3

/-- Third block of `handleVibrationSound` (the `!audioMode` test): audio
mode is entered. -/
def soundEnterAudio (s4 : State) : Option State :=
  if !s4.audioMode then
    let timerIntervalMs : Int := 10
    let s5 := { s4 with
      audioPlaybackTimer :=
        { s4.audioPlaybackTimer with
          alarmValue := toUInt64 (timerIntervalMs * 1000), autoreload := true } }
    let s6 := drvSetMode s5 DRV2605_MODE_AUDIOVIBE
    let s7 := drvWriteRegister8 s6 REG_AC_COUPLE BIT_AC_COUPLE
    let s8 := drvWriteRegister8 s7 REG_N_PWM_ANALOG BIT_N_PWM_ANALOG
    let s9 := dacFillBuffer s8
    match dacPlayFront s9 with
    | none => none
    | some s10 =>
        let s11 := { s10 with audioMode := true }
        let s12 := { s11 with
          chunkBufferTimer := { s11.chunkBufferTimer with enabled := true } }
        some { s12 with
          audioPlaybackTimer := { s12.audioPlaybackTimer with enabled := true } }
  else some s4

/-- Embeds `handleVibrationSound(data)`: the header is read, the chunk is
built and pushed (first block), then the two blocks above run. The chunk
constructor allocates the sample copy and the renderer item; `new WavChunk`
allocates the chunk object, which is copied into the queue. -/
def handleVibrationSound (s : State) (data : List Byte) : Option State :=
  match readInt32 data 0, readInt32 data 4, readInt32 data 8 with
  | some soundFile, some chunkId, some dataLength =>
      let data1 := data.drop 12
      let s1 := serialPrintlnf s
      if dataLength < 0 then none
      else if data1.length < dataLength.toNat then none
      else
        let chunk : WavChunk :=
          { soundId := soundFile, chunkId := chunkId,
            wavData := data1.take dataLength.toNat, playing := false }
        let s2 := { s1 with allocs := s1.allocs + 3, chunkQueue := s1.chunkQueue ++ [chunk] }
        match soundLeaveOtherModes s2 with
        | none => none
        | some s4 => soundEnterAudio s4
  | _, _, _ => none

/-- Embeds `handlePacket(packetType, data)`. -/
def handlePacket (s : State) (packetType : Int) (data : List Byte) : Option State :=
  if packetType = PacketType.Test then handleTestPacket s data
  else if packetType = PacketType.VibrationEffect then handleVibrationPacket s data
  else if packetType = PacketType.VibrationPattern then handleVibrationPatternPacket s data
  else if packetType = PacketType.VibrationSound then handleVibrationSound s data
  else if packetType = PacketType.VibrationSoundRequest then handleVibrationSoundRequest s data
  else if packetType = PacketType.VibrationRealtime then handleRealtime s data
  else some s

/-- Embeds `requestNewAudioChunk()`. -/
def requestNewAudioChunk (s : State) : State :=
  let packet := int32Bytes PacketType.VibrationSoundRequest ++ int32Bytes 4 ++ int32Bytes 1
  { s with btWrites := s.btWrites ++ [packet] }

/-- Embeds `onChunkBufferTimer()`. The difference is computed in `size_t` and
converted to `int`. The debug counter `it1` is taken in the integers (it
would wrap only after 2^31 ticks of 200 ms). -/
def onChunkBufferTimer (s : State) : Option State :=
  if !s.audioMode then some s
  else
    let s1 := serialPrintlnf s
    let s2 := { s1 with it1 := s1.it1 + 1 }
    let diff : Int :=
      toInt32 (toUInt32 ((toUInt32 CHUNK_QUEUE_TARGET_SIZE : Int) - (s2.chunkQueue.length : Int)))
    let s3 := serialPrintlnf s2
    forRange (fun _ t => some (requestNewAudioChunk t)) 0 diff.toNat s3

/-- Embeds `onAudioPlaybackTimer()`. Popping the front chunk runs its destructor,
which releases the sample copy and the renderer item. -/
def onAudioPlaybackTimer (s : State) : Option State :=
  let continue_ (t : State) : Option State :=
    if t.patternMode then some { t with playNextPatternFlag := true } else some t
  if s.audioMode then
    match s.chunkQueue with
    | [] => some s
    | c :: rest =>
        if !c.playing then
          let s1 := serialPrintln s
          let s2 := { s1 with chunkQueue := rest, frees := s1.frees + 2 }
          if s2.chunkQueue.isEmpty then
            some (serialPrintln { s2 with exitAudiomodeFlag := true })
          else
            match dacPlayFront s2 with
            | none => none
            | some s3 => continue_ s3
        else continue_ s
  else continue_ s

/-- Embeds `readPacketFromBT()`. `readBytes` takes what is available, at most the
requested number of bytes; payload bytes that did not arrive are not
readable by the handler. -/
def readPacketFromBT (s : State) : Option State :=
  if s.btIn.length < 8 then some s
  else
    match readInt32 s.btIn 0, readInt32 s.btIn 4 with
    | some packetType, some dataLength =>
        let s1 := { s with btIn := s.btIn.drop 8 }
        if dataLength = 0 ∨ packetType = 0 then some s1
        else if dataLength < 0 then none
        else
          let s2 := { s1 with allocs := s1.allocs + 1 }
          let s3 := serialPrintlnf s2
          let data := s3.btIn.take dataLength.toNat
          let s4 := { s3 with btIn := s3.btIn.drop dataLength.toNat }
          let s5 := serialPrintlnf s4
          match handlePacket s5 packetType data with
          | none => none
          | some s6 => some { s6 with frees := s6.frees + 1 }
    | _, _ => none

/-- First part of `loop()`: the deferred exit from audio mode. -/
def loopExitAudio (s : State) : Option State :=
  if s.exitAudiomodeFlag then
    match handleVibrationSoundRequest s (int32Bytes 2) with
    | none => none
    | some s1 => some { s1 with exitAudiomodeFlag := false }
  else some s

/-- Second part of `loop()`: the deferred pattern advance. The read
`currentPattern[patternIt]` is defined for a live buffer and an index inside
it. The addition `patternIt += 2` is taken in the integers; it stays below
2^31 in every reachable state (`reachable_cursor_in_int`). -/
def loopPatternAdvance (s : State) : Option State :=
  if s.playNextPatternFlag then
    if s.patternIt < s.patternLength then
      match s.currentPattern with
      | PatternPtr.live buf =>
          if s.patternIt < 0 then none
          else
            match buf[s.patternIt.toNat]? with
            | none => none
            | some v =>
                let s1 := drvSetRealtimeValue s v.val
                some { s1 with patternIt := s1.patternIt + 2, playNextPatternFlag := false }
      | _ => none
    else some s
  else some s

/-- The two deferred actions at the head of `loop()`. -/
def loopDeferred (s : State) : Option State :=
  match loopExitAudio s with
  | none => none
  | some s1 => loopPatternAdvance s1

/-- Embeds `loop()`. -/
def loop (s : State) : Option State :=
  match loopDeferred s with
  | none => none
  | some s1 =>
      let r := if s1.btIn.length ≠ 0 then readPacketFromBT s1 else some s1
      match r with
      | none => none
      | some s2 => some (dacFillBuffer s2)

/-- State at the end of `setup()`. The driver's own initialisation (`begin`,
`selectLibrary`, `useERM`) is taken as given: `d` is the driver state it
leaves, whose two coupling registers `setup()` reads into `regPWMAnalog` and
`regACCouple`. The call log starts with `setMode(INTTRIG)`; both alarms are
written (200 ms and 10 ms) and left disabled. -/
def setup (d : Drv) : State :=
  { chunkQueue := [], audioMode := false,
    chunkBufferTimer := { alarmValue := 200 * 1000, autoreload := true, enabled := false },
    audioPlaybackTimer := { alarmValue := 10 * 1000, autoreload := true, enabled := false },
    exitAudiomodeFlag := false,
    regACCouple := d.regs REG_AC_COUPLE,
    regPWMAnalog := d.regs REG_N_PWM_ANALOG,
    patternMode := false, currentPattern := PatternPtr.null,
    patternIt := 1, patternLength := 0, playNextPatternFlag := false,
    realTimeMode := false, it1 := 0, it2 := 0,
    drv := { d with mode := DRV2605_MODE_INTTRIG },
    drvCalls := [DrvCall.setMode DRV2605_MODE_INTTRIG],
    dacCalls := [], btIn := [], btWrites := [],
    serialLines := 2, allocs := 0, frees := 0 }

/-- A concrete driver state after the driver's own initialisation: all
slots and registers zero. -/
def bootDrv : Drv :=
  { mode := 0, waveform := fun _ => 0, goBit := false, rtp := 0, regs := fun _ => 0 }

/-- The state after `setup()` over `bootDrv`. -/
def bootState : State := setup bootDrv

/-- A Pattern packet payload: status Play, length 2, pattern bytes 10, 20. -/
def playPayload : List Byte := [1, 0, 0, 0, 2, 0, 0, 0, 10, 20]

/-- A Sound packet payload: sound 1, chunk 0, 46 sample bytes (all zero). -/
def soundPayload : List Byte :=
  [1, 0, 0, 0, 0, 0, 0, 0, 46, 0, 0, 0] ++ List.replicate 46 0

/-- A Realtime packet payload: raw value 7. -/
def realtimePayload : List Byte := [7, 0]

/-- The state after `setup()` and one Pattern-Play packet `playPayload`. -/
def patternState : State :=
  (handleVibrationPatternPacket bootState playPayload).getD bootState

/-- The outbound packet written by `requestNewAudioChunk`, byte by byte. -/
def soundRequestPacket : List Byte := [6, 0, 0, 0, 4, 0, 0, 0, 1, 0, 0, 0]

/-! ## Executions -/

/-- What can happen to the controller: the main loop dispatches a received
packet, the main loop runs its deferred actions, one of the two timer
alarms fires, or the renderer finishes the item of the `i`-th chunk. -/
inductive Event where
  | packet (packetType : Int) (data : List Byte)
  | drain
  | chunkBufferTick
  | audioPlaybackTick
  | rendererDone (i : Nat)

/-- One event. A timer callback runs only while its alarm is enabled. -/
def step (s : State) : Event → Option State
  | Event.packet packetType data => handlePacket s packetType data
  | Event.drain => loopDeferred s
  | Event.chunkBufferTick =>
      if s.chunkBufferTimer.enabled then onChunkBufferTimer s else none
  | Event.audioPlaybackTick =>
      if s.audioPlaybackTimer.enabled then onAudioPlaybackTimer s else none
  | Event.rendererDone i =>
      match s.chunkQueue[i]? with
      | none => none
      | some c => some { s with chunkQueue := s.chunkQueue.set i { c with playing := false } }

/-- A sequence of events, from the left. -/
def run (s : State) : List Event → Option State
  | [] => some s
  | e :: es =>
      match step s e with
      | none => none
      | some s1 => run s1 es

/-- The state after `setup()` and two Sound packets: audio mode with two
chunks queued. -/
def audioState2 : State :=
  (run bootState
    [Event.packet PacketType.VibrationSound soundPayload,
     Event.packet PacketType.VibrationSound soundPayload]).getD bootState

/-- The state after `setup()`, one Sound packet, and the renderer finishing
that chunk: audio mode with one chunk queued that is not playing. -/
def lastChunkState : State :=
  (run bootState
    [Event.packet PacketType.VibrationSound soundPayload, Event.rendererDone 0]).getD bootState

/-- A second Sound packet payload: sound 1, chunk 1, 46 sample bytes. -/
def soundPayloadB : List Byte :=
  [1, 0, 0, 0, 1, 0, 0, 0, 46, 0, 0, 0] ++ List.replicate 46 0

/-- The state after `setup()`, the Sound packets for chunk 0 and chunk 1,
and the renderer finishing chunk 0: audio mode, two chunks queued, the front
one not playing. -/
def twoChunksFinished : State :=
  (run bootState
    [Event.packet PacketType.VibrationSound soundPayload,
     Event.packet PacketType.VibrationSound soundPayloadB,
     Event.rendererDone 0]).getD bootState

/-- The state after `setup()`, the Pattern-Play packet `playPayload` and one
playback tick: a pattern advance is pending with the cursor at 1. -/
def advancePendingState : State :=
  (run bootState
    [Event.packet PacketType.VibrationPattern playPayload,
     Event.audioPlaybackTick]).getD bootState

/-- States the controller can be in: those produced from the state after
`setup()` by some sequence of events. -/
def Reachable (s : State) : Prop :=
  ∃ (d : Drv) (es : List Event), run (setup d) es = some s

/-- Consistency of the mode bookkeeping with the peripherals, kept by every
event: without an installed pattern the cursor is at its initial position;
outside audio mode the refill alarm is off, the chunk queue is empty and the
coupling registers hold their snapshot; with neither audio nor pattern mode
the playback alarm is off; with no mode flag set the driver is in triggered
mode. -/
def Inv (s : State) : Prop :=
  (s.currentPattern = PatternPtr.null → s.patternIt = 1 ∧ s.patternLength = 0) ∧
  (s.audioMode = false →
    s.chunkBufferTimer.enabled = false ∧ s.chunkQueue = [] ∧
    s.drv.regs REG_AC_COUPLE = s.regACCouple ∧
    s.drv.regs REG_N_PWM_ANALOG = s.regPWMAnalog) ∧
  (s.audioMode = false → s.patternMode = false → s.audioPlaybackTimer.enabled = false) ∧
  (s.audioMode = false → s.patternMode = false → s.realTimeMode = false →
    s.drv.mode = DRV2605_MODE_INTTRIG)

/-- Consistency of the pattern cursor with the pattern buffer, kept by
every event: the cursor is odd and at least 1; with a live buffer
`patternLength` is the size of the buffer; without one the cursor is at its
initial position and `patternLength` is 0. -/
def PatInv (s : State) : Prop :=
  1 ≤ s.patternIt ∧ s.patternIt % 2 = 1 ∧
  match s.currentPattern with
  | PatternPtr.live buf => s.patternLength = (buf.length : Int)
  | _ => s.patternIt = 1 ∧ s.patternLength = 0

/-- Relation between the state before and after code that touches only the
waveform slots and trigger bit of the driver, the transport output, the
debug counter and the logs. -/
def OutputOnly (s s' : State) : Prop :=
  ∃ (wf : Nat → Nat) (g : Bool) (calls : List DrvCall) (w : List (List Byte)) (i1 : Int)
    (lines a f : Nat),
    s' = { s with
      drv := { s.drv with waveform := wf, goBit := g },
      drvCalls := calls, btWrites := w, it1 := i1, serialLines := lines, allocs := a, frees := f }

/-- Two states agree on every global variable of the program and on the
state of the driver and the timers; the call logs and the debug and heap
counters are not compared. -/
def sameState (a b : State) : Prop :=
  a.chunkQueue = b.chunkQueue ∧ a.audioMode = b.audioMode ∧
  a.chunkBufferTimer = b.chunkBufferTimer ∧ a.audioPlaybackTimer = b.audioPlaybackTimer ∧
  a.exitAudiomodeFlag = b.exitAudiomodeFlag ∧
  a.regACCouple = b.regACCouple ∧ a.regPWMAnalog = b.regPWMAnalog ∧
  a.patternMode = b.patternMode ∧ a.currentPattern = b.currentPattern ∧
  a.patternIt = b.patternIt ∧ a.patternLength = b.patternLength ∧
  a.playNextPatternFlag = b.playNextPatternFlag ∧ a.realTimeMode = b.realTimeMode ∧
  a.it1 = b.it1 ∧ a.it2 = b.it2 ∧
  a.drv.mode = b.drv.mode ∧ a.drv.waveform = b.drv.waveform ∧ a.drv.goBit = b.drv.goBit ∧
  a.drv.rtp = b.drv.rtp ∧ a.drv.regs = b.drv.regs ∧
  a.btIn = b.btIn ∧ a.btWrites = b.btWrites

/-! ## Executions with the far end of the transport -/

/-- The controller together with the far end of the transport: `credit` is
the number of SoundRequest packets the far end has received and not yet
answered with a Sound packet. -/
structure Flow where
  ctl : State
  credit : Nat

/-- Events of a streaming execution: the far end answers one received
request with a Sound packet, the far end sends the first chunk of a stream
unasked, the refill alarm fires, the playback alarm fires, the renderer
finishes the item of the `i`-th chunk, the main loop runs its deferred
actions. -/
inductive FlowEvent where
  | soundAsked (data : List Byte)
  | soundFirst (data : List Byte)
  | chunkBufferTick
  | audioPlaybackTick
  | rendererDone (i : Nat)
  | drain

/-- One event of a streaming execution. A Sound packet is sent in answer to
a request only while a request is unanswered, and unasked only while the
controller is outside audio mode (the first chunk of a stream); every
SoundRequest packet written by the refill tick is received by the far end.
With `paced` set, the far end additionally starts a stream only while no
request is unanswered, and the refill alarm fires only while no request is
unanswered. -/
def flowStep (paced : Bool) (f : Flow) : FlowEvent → Option Flow
  | FlowEvent.soundAsked data =>
      if f.credit = 0 then none
      else
        match handlePacket f.ctl PacketType.VibrationSound data with
        | none => none
        | some s => some { ctl := s, credit := f.credit - 1 }
  | FlowEvent.soundFirst data =>
      if f.ctl.audioMode then none
      else if paced ∧ f.credit ≠ 0 then none
      else
        match handlePacket f.ctl PacketType.VibrationSound data with
        | none => none
        | some s => some { ctl := s, credit := f.credit }
  | FlowEvent.chunkBufferTick =>
      if paced ∧ f.credit ≠ 0 then none
      else
        match step f.ctl Event.chunkBufferTick with
        | none => none
        | some s =>
            some { ctl := s, credit := f.credit + (s.btWrites.length - f.ctl.btWrites.length) }
  | FlowEvent.audioPlaybackTick =>
      match step f.ctl Event.audioPlaybackTick with
      | none => none
      | some s => some { ctl := s, credit := f.credit }
  | FlowEvent.rendererDone i =>
      match step f.ctl (Event.rendererDone i) with
      | none => none
      | some s => some { ctl := s, credit := f.credit }
  | FlowEvent.drain =>
      match step f.ctl Event.drain with
      | none => none
      | some s => some { ctl := s, credit := f.credit }

/-- A sequence of streaming events, from the left. -/
def flowRun (paced : Bool) (f : Flow) : List FlowEvent → Option Flow
  | [] => some f
  | e :: es =>
      match flowStep paced f e with
      | none => none
      | some f1 => flowRun paced f1 es

/-- What the paced executions keep: outside audio mode the queue is empty,
and queued chunks plus unanswered requests stay within the target size. -/
def FlowInv (f : Flow) : Prop :=
  (f.ctl.audioMode = false → f.ctl.chunkQueue = []) ∧
  (f.ctl.chunkQueue.length : Int) + (f.credit : Int) ≤ CHUNK_QUEUE_TARGET_SIZE

/-- A streaming execution in which the refill alarm fires twice before the
far end answers: first chunk, two refill ticks, five answers. -/
def twoRefillsThenAnswers : List FlowEvent :=
  [FlowEvent.soundFirst soundPayload, FlowEvent.chunkBufferTick, FlowEvent.chunkBufferTick,
   FlowEvent.soundAsked soundPayload, FlowEvent.soundAsked soundPayload,
   FlowEvent.soundAsked soundPayload, FlowEvent.soundAsked soundPayload,
   FlowEvent.soundAsked soundPayload]

/-- A paced streaming execution: first chunk, one refill tick, four
answers, the renderer finishes the first chunk, one playback tick. -/
def pacedStream : List FlowEvent :=
  [FlowEvent.soundFirst soundPayload, FlowEvent.chunkBufferTick,
   FlowEvent.soundAsked soundPayload, FlowEvent.soundAsked soundPayload,
   FlowEvent.soundAsked soundPayload, FlowEvent.soundAsked soundPayload,
   FlowEvent.rendererDone 0, FlowEvent.audioPlaybackTick]

/-- Relation between the state before and after code that neither reads
from nor writes to the transport and leaves the register snapshot alone. -/
def TransportKept (s s' : State) : Prop :=
  s'.btIn = s.btIn ∧ s'.btWrites = s.btWrites ∧
  s'.regACCouple = s.regACCouple ∧ s'.regPWMAnalog = s.regPWMAnalog

/-- The state after `setup()` with a header on the transport whose type is 3
and whose length field is -1. -/
def negativeLengthInput : State :=
  { bootState with btIn := [3, 0, 0, 0, 255, 255, 255, 255] }

/-- The state after `setup()` with an Effect packet on the transport whose
length field announces 100 payload bytes of which 5 have arrived. -/
def shortPayloadInput : State :=
  { bootState with btIn := [3, 0, 0, 0, 100, 0, 0, 0, 1, 0, 0, 0, 47] }

/-- The state after `setup()` with a complete Effect packet (type 3, length
6, count 2, values 47 and 13) on the transport, followed by one more byte. -/
def framedInput : State :=
  { bootState with btIn := [3, 0, 0, 0, 6, 0, 0, 0, 2, 0, 0, 0, 47, 13, 9] }

/-- What both timer callbacks leave alone: the mode flags, both alarms, the
driver and its call log, the register snapshot, the pattern and its cursor,
and the inbound transport bytes. -/
def TickKeeps (s s' : State) : Prop :=
  s'.audioMode = s.audioMode ∧ s'.patternMode = s.patternMode ∧
  s'.realTimeMode = s.realTimeMode ∧
  s'.chunkBufferTimer = s.chunkBufferTimer ∧ s'.audioPlaybackTimer = s.audioPlaybackTimer ∧
  s'.drv = s.drv ∧ s'.drvCalls = s.drvCalls ∧
  s'.regACCouple = s.regACCouple ∧ s'.regPWMAnalog = s.regPWMAnalog ∧
  s'.currentPattern = s.currentPattern ∧ s'.patternIt = s.patternIt ∧
  s'.patternLength = s.patternLength ∧ s'.btIn = s.btIn ∧ s'.it2 = s.it2

/-- The state after `setup()`, two Sound packets and one refill tick: three
SoundRequest packets have been written to the transport. -/
def requestedState : State :=
  (onChunkBufferTimer audioState2).getD audioState2

end Doki

namespace Doki

/-! ## Helper lemmas: integer conversions -/

theorem toUInt8_natCast (j : Nat) (h : j < 256) : toUInt8 (j : Int) = j := by
  unfold toUInt8
  omega

/-! ## Helper lemmas: the two loops of `playVibrationEffects` -/

/-- The first loop of `playVibrationEffects`, started at index `lo`. -/
theorem forRange_effects (values : List Byte) :
    ∀ (n lo : Nat) (t : State), lo + n ≤ values.length → lo + n ≤ 256 →
      ∃ (t' : State) (W : List DrvCall),
        forRange
          (fun i t =>
            match values[i.toNat]? with
            | none => none
            | some v => some (serialPrintlnf (drvSetWaveform t (toUInt8 i) v.val)))
          (lo : Int) n t = some t' ∧
        t'.drvCalls = t.drvCalls ++ W ∧
        (∀ c ∈ W, ∃ slot w, c = DrvCall.setWaveform slot w) ∧
        (∀ j, lo ≤ j → j < lo + n → ∃ v, values[j]? = some v ∧ t'.drv.waveform j = v.val) ∧
        (∀ j, (j < lo ∨ lo + n ≤ j) → t'.drv.waveform j = t.drv.waveform j) ∧
        t'.drv.mode = t.drv.mode := by
  intro n
  induction n with
  | zero =>
      intro lo t _ _
      refine ⟨t, [], ?_, by simp, by simp, ?_, by simp, rfl⟩
      · simp [forRange]
      · intro j h1 h2
        omega
  | succ n ih =>
      intro lo t hlen h256
      have hlo : lo < values.length := by omega
      obtain ⟨t', W, hrun, hcalls, hW, hin, hout, hmode⟩ :=
        ih (lo + 1) (serialPrintlnf (drvSetWaveform t (toUInt8 (lo : Int)) (values[lo]).val))
          (by omega) (by omega)
      refine ⟨t', DrvCall.setWaveform (toUInt8 (lo : Int)) (values[lo]).val :: W, ?_, ?_, ?_, ?_, ?_, ?_⟩
      · simp only [forRange, Int.toNat_ofNat, List.getElem?_eq_getElem hlo]
        have hcast : ((lo : Int) + 1) = ((lo + 1 : Nat) : Int) := by push_cast; rfl
        rw [hcast]
        exact hrun
      · rw [hcalls]
        simp [serialPrintlnf, serialPrintln, drvSetWaveform]
      · intro c hc
        rcases List.mem_cons.mp hc with h | h
        · exact ⟨_, _, h⟩
        · exact hW c h
      · intro j h1 h2
        by_cases hj : j = lo
        · subst hj
          refine ⟨values[j], List.getElem?_eq_getElem hlo, ?_⟩
          rw [hout j (Or.inl (by omega))]
          simp [serialPrintlnf, serialPrintln, drvSetWaveform, toUInt8_natCast j (by omega)]
        · exact hin j (by omega) (by omega)
      · intro j hj
        rw [hout j (by omega)]
        have hne : j ≠ lo := by omega
        simp [serialPrintlnf, serialPrintln, drvSetWaveform, toUInt8_natCast lo (by omega), hne]
      · rw [hmode]
        simp [serialPrintlnf, serialPrintln, drvSetWaveform]

/-- The second loop of `playVibrationEffects` (zero fill), started at `lo`. -/
theorem forRange_zeroFill :
    ∀ (n : Nat) (lo : Int) (t : State),
      ∃ (t' : State) (W : List DrvCall),
        forRange (fun i t => some (drvSetWaveform t (toUInt8 i) 0)) lo n t = some t' ∧
        t'.drvCalls = t.drvCalls ++ W ∧
        (∀ c ∈ W, ∃ slot w, c = DrvCall.setWaveform slot w) ∧
        (∀ j, t.drv.waveform j = 0 → t'.drv.waveform j = 0) ∧
        (∀ j : Nat, lo ≤ (j : Int) → (j : Int) < lo + n → j < 256 → t'.drv.waveform j = 0) ∧
        (∀ j : Nat, (∀ i : Int, lo ≤ i → i < lo + n → toUInt8 i ≠ j) →
          t'.drv.waveform j = t.drv.waveform j) ∧
        t'.drv.mode = t.drv.mode := by
  intro n
  induction n with
  | zero =>
      intro lo t
      refine ⟨t, [], ?_, by simp, by simp, fun _ h => h, ?_, fun _ _ => rfl, rfl⟩
      · simp [forRange]
      · intro j h1 h2
        simp at h2
        omega
  | succ n ih =>
      intro lo t
      obtain ⟨t', W, hrun, hcalls, hW, hzero, hin, hout, hmode⟩ :=
        ih (lo + 1) (drvSetWaveform t (toUInt8 lo) 0)
      clear ih
      have hwf : ∀ j, (drvSetWaveform t (toUInt8 lo) 0).drv.waveform j
          = if j = toUInt8 lo then 0 else t.drv.waveform j := fun _ => rfl
      refine ⟨t', DrvCall.setWaveform (toUInt8 lo) 0 :: W, ?_, ?_, ?_, ?_, ?_, ?_, ?_⟩
      · simp only [forRange]
        exact hrun
      · rw [hcalls]
        simp [drvSetWaveform]
      · intro c hc
        rcases List.mem_cons.mp hc with h | h
        · exact ⟨_, _, h⟩
        · exact hW c h
      · intro j hj
        apply hzero
        rw [hwf]
        split
        · rfl
        · exact hj
      · intro j h1 h2 h256
        by_cases hj : (j : Int) = lo
        · apply hzero
          have h8 : toUInt8 lo = j := by rw [← hj]; exact toUInt8_natCast j h256
          rw [hwf, if_pos h8.symm]
        · have h3 : (j : Int) < lo + ((n + 1 : Nat) : Int) := h2
          have h4 : ((n + 1 : Nat) : Int) = (n : Int) + 1 := by push_cast; rfl
          exact hin j (by omega) (by omega) h256
      · intro j hj
        have h4 : ((n + 1 : Nat) : Int) = (n : Int) + 1 := by push_cast; rfl
        rw [hout j]
        · have hne : j ≠ toUInt8 lo := fun h => hj lo (le_refl _) (by omega) h.symm
          rw [hwf, if_neg hne]
        · intro i h1 h2
          exact hj i (by omega) (by omega)
      · rw [hmode]
        rfl

/-! ## Effect packets -/

/-- C1: for an Effect packet whose count field is at most 8 (and whose
payload carries the count bytes it announces), `handleVibrationPacket`
returns; afterwards waveform slot `i` holds the supplied byte `values[i]` for
every `i < count`, every slot `i` with `count <= i < 8` holds 0, and the
driver calls made are `setMode(INTTRIG)`, `stop`, then only `setWaveform`
calls, then a single final `go`. -/
theorem C1_effect_loads_slots (s : State) (data : List Byte) (count : Int)
    (hcount : readInt32 data 0 = some count) (hle : count ≤ 8)
    (hdata : count.toNat + 4 ≤ data.length) :
    ∃ (s' : State) (writes : List DrvCall),
      handleVibrationPacket s data = some s' ∧
      (∀ i : Nat, (i : Int) < count →
        ∃ v, data[4 + i]? = some v ∧ s'.drv.waveform i = v.val) ∧
      (∀ i : Nat, count ≤ (i : Int) → i < 8 → s'.drv.waveform i = 0) ∧
      s'.drvCalls = s.drvCalls ++ [DrvCall.setMode DRV2605_MODE_INTTRIG, DrvCall.stop]
        ++ writes ++ [DrvCall.go] ∧
      (∀ c ∈ writes, ∃ slot w, c = DrvCall.setWaveform slot w) := by
  have hvals : 0 + count.toNat ≤ (data.drop 4).length := by
    rw [List.length_drop]
    omega
  obtain ⟨t2, W1, hrun1, hcalls1, hW1, hin1, hout1, -⟩ :=
    forRange_effects (data.drop 4) count.toNat 0
      (drvStop (drvSetMode { s with realTimeMode := false } DRV2605_MODE_INTTRIG))
      hvals (by omega)
  rw [Nat.cast_zero] at hrun1
  have hbase : (drvStop (drvSetMode { s with realTimeMode := false } DRV2605_MODE_INTTRIG)).drvCalls
      = s.drvCalls ++ [DrvCall.setMode DRV2605_MODE_INTTRIG, DrvCall.stop] := by
    simp [drvStop, drvSetMode]
  have hget : ∀ i : Nat, (data.drop 4)[i]? = data[4 + i]? := fun i => List.getElem?_drop data 4 i
  by_cases h8 : count < 8
  · obtain ⟨t3, W2, hrun2, hcalls2, hW2, -, hin2, hout2, -⟩ :=
      forRange_zeroFill (8 - count).toNat count t2
    refine ⟨drvGo t3, W1 ++ W2, ?_, ?_, ?_, ?_, ?_⟩
    · simp only [handleVibrationPacket, hcount, playVibrationEffects,
        if_neg (not_lt.mpr hle), hrun1, if_pos h8, hrun2]
    · intro i hi
      obtain ⟨v, hv, hw⟩ := hin1 i (by omega) (by omega)
      refine ⟨v, by rw [← hget]; exact hv, ?_⟩
      show t3.drv.waveform i = v.val
      rw [hout2 i, hw]
      intro k hk1 hk2 hk3
      have hk : toUInt8 k = k.toNat := by
        have := toUInt8_natCast k.toNat (by omega)
        rwa [Int.toNat_of_nonneg (by omega)] at this
      omega
    · intro i hi1 hi2
      show t3.drv.waveform i = 0
      exact hin2 i hi1 (by omega) (by omega)
    · show t3.drvCalls ++ [DrvCall.go] = _
      rw [hcalls2, hcalls1, hbase]
      simp
    · intro c hc
      rcases List.mem_append.mp hc with h | h
      · exact hW1 c h
      · exact hW2 c h
  · have hc8 : count = 8 := by omega
    refine ⟨drvGo t2, W1, ?_, ?_, ?_, ?_, hW1⟩
    · simp only [handleVibrationPacket, hcount, playVibrationEffects,
        if_neg (not_lt.mpr hle), hrun1, if_neg h8]
    · intro i hi
      obtain ⟨v, hv, hw⟩ := hin1 i (by omega) (by omega)
      exact ⟨v, by rw [← hget]; exact hv, hw⟩
    · intro i hi1 hi2
      omega
    · show t2.drvCalls ++ [DrvCall.go] = _
      rw [hcalls1, hbase]

/-- Witness for C1: an Effect packet with count 2 and values 47, 13. -/
theorem C1_effect_loads_slots_witness :
    ∃ (s' : State) (writes : List DrvCall),
      handleVibrationPacket bootState [2, 0, 0, 0, 47, 13] = some s' ∧
      (∀ i : Nat, (i : Int) < 2 →
        ∃ v, ([2, 0, 0, 0, 47, 13] : List Byte)[4 + i]? = some v ∧ s'.drv.waveform i = v.val) ∧
      (∀ i : Nat, (2 : Int) ≤ (i : Int) → i < 8 → s'.drv.waveform i = 0) ∧
      s'.drvCalls = bootState.drvCalls
        ++ [DrvCall.setMode DRV2605_MODE_INTTRIG, DrvCall.stop] ++ writes ++ [DrvCall.go] ∧
      (∀ c ∈ writes, ∃ slot w, c = DrvCall.setWaveform slot w) :=
  C1_effect_loads_slots bootState [2, 0, 0, 0, 47, 13] 2 (by decide) (by decide) (by decide)

/-! ## Dispatch -/

theorem handlePacket_effect (s : State) (data : List Byte) :
    handlePacket s PacketType.VibrationEffect data = handleVibrationPacket s data := rfl

theorem handlePacket_pattern (s : State) (data : List Byte) :
    handlePacket s PacketType.VibrationPattern data = handleVibrationPatternPacket s data := rfl

theorem handlePacket_sound (s : State) (data : List Byte) :
    handlePacket s PacketType.VibrationSound data = handleVibrationSound s data := rfl

theorem handlePacket_soundRequest (s : State) (data : List Byte) :
    handlePacket s PacketType.VibrationSoundRequest data
      = handleVibrationSoundRequest s data := rfl

theorem handlePacket_realtime (s : State) (data : List Byte) :
    handlePacket s PacketType.VibrationRealtime data = handleRealtime s data := rfl

/-- C2, as stated, fails: after a Realtime packet the driver is in realtime
mode; an Effect packet with count 9 is then dispatched, which issues the
driver call `setMode(INTTRIG)` and changes the driver mode. -/
theorem C2_oversized_effect_counterexample :
    ∃ s1 s2 : State,
      run bootState [Event.packet PacketType.VibrationRealtime [7, 0]] = some s1 ∧
      readInt32 [9, 0, 0, 0] 0 = some 9 ∧
      handlePacket s1 PacketType.VibrationEffect [9, 0, 0, 0] = some s2 ∧
      s2.drvCalls = s1.drvCalls ++ [DrvCall.setMode DRV2605_MODE_INTTRIG] ∧
      s2.drvCalls ≠ s1.drvCalls ∧
      s1.drv.mode = DRV2605_MODE_REALTIME ∧
      s2.drv.mode = DRV2605_MODE_INTTRIG ∧
      s2.drv.mode ≠ s1.drv.mode :=
  ⟨_, _, rfl, by decide, rfl, rfl, by decide, rfl, rfl, by decide⟩

/-- C2, amended: for an Effect packet whose count field exceeds 8,
`playVibrationEffects` itself makes no driver call and changes nothing;
dispatch through `handlePacket`/`handleVibrationPacket` makes exactly one
driver call, `setMode(INTTRIG)`, and clears `realTimeMode`. No `stop`,
`setWaveform` or `go` is issued; waveform slots, trigger bit, realtime value
and control registers are unchanged, as are the audio and pattern flags. -/
theorem C2_oversized_effect (s : State) (data : List Byte) (count : Int)
    (hcount : readInt32 data 0 = some count) (hgt : count > 8) :
    (∀ (t : State) (values : List Byte), playVibrationEffects t count values = some t) ∧
    ∃ s' : State,
      handlePacket s PacketType.VibrationEffect data = some s' ∧
      s'.drvCalls = s.drvCalls ++ [DrvCall.setMode DRV2605_MODE_INTTRIG] ∧
      s'.drv.mode = DRV2605_MODE_INTTRIG ∧
      s'.drv.waveform = s.drv.waveform ∧
      s'.drv.goBit = s.drv.goBit ∧
      s'.drv.rtp = s.drv.rtp ∧
      s'.drv.regs = s.drv.regs ∧
      s'.realTimeMode = false ∧
      s'.audioMode = s.audioMode ∧
      s'.patternMode = s.patternMode := by
  have hplay : ∀ (t : State) (values : List Byte),
      playVibrationEffects t count values = some t := by
    intro t values
    simp only [playVibrationEffects, if_pos hgt]
  refine ⟨hplay, drvSetMode { s with realTimeMode := false } DRV2605_MODE_INTTRIG, ?_,
    rfl, rfl, rfl, rfl, rfl, rfl, rfl, rfl, rfl⟩
  rw [handlePacket_effect]
  simp only [handleVibrationPacket, hcount, hplay]

/-- Witness for C2 (amended): an Effect packet with count 9. -/
theorem C2_oversized_effect_witness :
    (∀ (t : State) (values : List Byte), playVibrationEffects t 9 values = some t) ∧
    ∃ s' : State,
      handlePacket bootState PacketType.VibrationEffect [9, 0, 0, 0] = some s' ∧
      s'.drvCalls = bootState.drvCalls ++ [DrvCall.setMode DRV2605_MODE_INTTRIG] ∧
      s'.drv.mode = DRV2605_MODE_INTTRIG ∧
      s'.drv.waveform = bootState.drv.waveform ∧
      s'.drv.goBit = bootState.drv.goBit ∧
      s'.drv.rtp = bootState.drv.rtp ∧
      s'.drv.regs = bootState.drv.regs ∧
      s'.realTimeMode = false ∧
      s'.audioMode = bootState.audioMode ∧
      s'.patternMode = bootState.patternMode :=
  C2_oversized_effect bootState [9, 0, 0, 0] 9 (by decide) (by decide)

/-! ## Sound packets and mode exclusivity -/

/-- C3 (code defect): with a pattern installed by a Pattern-Play packet, a
Sound packet is handled; afterwards `audioMode` is true and `realTimeMode`
and `patternMode` are false, but `currentPattern` is not null: `deletePattern`
releases the buffer and leaves the pointer in place. A following
Pattern-Play packet then releases the same buffer again, for which the
program has no defined result. -/
theorem C3_sound_leaves_pattern_pointer :
    ∃ s1 s2 : State,
      run bootState [Event.packet PacketType.VibrationPattern playPayload] = some s1 ∧
      s1.patternMode = true ∧
      s1.currentPattern = PatternPtr.live [10, 20] ∧
      handleVibrationSound s1 soundPayload = some s2 ∧
      s2.audioMode = true ∧ s2.realTimeMode = false ∧ s2.patternMode = false ∧
      s2.currentPattern = PatternPtr.dangling ∧
      s2.currentPattern ≠ PatternPtr.null ∧
      handlePacket s2 PacketType.VibrationPattern playPayload = none :=
  ⟨_, _, rfl, rfl, rfl, rfl, rfl, rfl, rfl, rfl, by decide, rfl⟩

/-- C4 (code defect): two mode flags can be true at once in a reachable
state. After Pattern-Play and then a Realtime packet both `patternMode` and
`realTimeMode` are true; after a Sound packet and then a Realtime packet both
`audioMode` and `realTimeMode` are true. `handleRealtime` clears no other
mode flag. -/
theorem C4_two_modes_at_once :
    (∃ s : State, Reachable s ∧ s.patternMode = true ∧ s.realTimeMode = true ∧
      s.audioPlaybackTimer.enabled = true) ∧
    (∃ s : State, Reachable s ∧ s.audioMode = true ∧ s.realTimeMode = true ∧
      s.drv.mode = DRV2605_MODE_REALTIME) :=
  ⟨⟨_, ⟨bootDrv, [Event.packet PacketType.VibrationPattern playPayload, Event.drain,
        Event.packet PacketType.VibrationRealtime realtimePayload], rfl⟩, rfl, rfl, rfl⟩,
   ⟨_, ⟨bootDrv, [Event.packet PacketType.VibrationSound soundPayload, Event.drain,
        Event.packet PacketType.VibrationRealtime realtimePayload], rfl⟩, rfl, rfl, rfl⟩⟩

/-! ## Frame lemmas and the invariant -/

theorem OutputOnly.refl (s : State) : OutputOnly s s :=
  ⟨_, _, _, _, _, _, _, _, rfl⟩

theorem OutputOnly.trans {a b c : State} (h1 : OutputOnly a b) (h2 : OutputOnly b c) :
    OutputOnly a c := by
  obtain ⟨_, _, _, _, _, _, _, _, rfl⟩ := h1
  obtain ⟨_, _, _, _, _, _, _, _, rfl⟩ := h2
  exact ⟨_, _, _, _, _, _, _, _, rfl⟩

theorem forRange_outputOnly (body : Int → State → Option State)
    (hbody : ∀ i t t', body i t = some t' → OutputOnly t t') :
    ∀ (n : Nat) (lo : Int) (s s' : State), forRange body lo n s = some s' → OutputOnly s s' := by
  intro n
  induction n with
  | zero =>
      intro lo s s' h
      simp only [forRange, Option.some.injEq] at h
      subst h
      exact OutputOnly.refl s
  | succ n ih =>
      intro lo s s' h
      simp only [forRange] at h
      split at h
      · cases h
      · next s1 h1 => exact (hbody _ _ _ h1).trans (ih _ _ _ h)

theorem OutputOnly.keepsInv {s s' : State} (h : OutputOnly s s') (hinv : Inv s) : Inv s' := by
  obtain ⟨_, _, _, _, _, _, _, _, rfl⟩ := h
  exact hinv

theorem playVibrationEffects_outputOnly (s s' : State) (count : Int) (values : List Byte)
    (h : playVibrationEffects s count values = some s') : OutputOnly s s' := by
  unfold playVibrationEffects at h
  split at h
  · cases h
    exact OutputOnly.refl s
  · have hstop : OutputOnly s (drvStop s) := ⟨_, _, _, _, _, _, _, _, rfl⟩
    simp only at h
    split at h
    · cases h
    · next s2 h2 =>
        have h12 : OutputOnly (drvStop s) s2 := by
          refine forRange_outputOnly _ ?_ _ _ _ _ h2
          intro i t t' hb
          split at hb
          · cases hb
          · cases hb
            exact ⟨_, _, _, _, _, _, _, _, rfl⟩
        split at h
        · cases h
        · next s3 h3 =>
            cases h
            have h23 : OutputOnly s2 s3 := by
              split at h3
              · refine forRange_outputOnly _ ?_ _ _ _ _ h3
                intro i t t' hb
                cases hb
                exact ⟨_, _, _, _, _, _, _, _, rfl⟩
              · cases h3
                exact OutputOnly.refl _
            exact (hstop.trans (h12.trans h23)).trans ⟨_, _, _, _, _, _, _, _, rfl⟩

theorem handleVibrationSoundRequest_inv (s s' : State) (data : List Byte) (hinv : Inv s)
    (h : handleVibrationSoundRequest s data = some s') : Inv s' := by
  unfold handleVibrationSoundRequest at h
  split at h
  · cases h
  · split at h
    · cases h
      obtain ⟨h1, -, -, -⟩ := hinv
      refine ⟨h1, ?_, ?_, ?_⟩
      · intro _
        simp [drvWriteRegister8, drvSetMode, dacStopAllSounds, REG_AC_COUPLE, REG_N_PWM_ANALOG,
          DRV2605_REG_CONTROL1, DRV2605_REG_CONTROL3]
      · intro _ _
        rfl
      · intro _ _ _
        rfl
    · cases h
      exact hinv

theorem handleRealtime_inv (s s' : State) (data : List Byte) (hinv : Inv s)
    (h : handleRealtime s data = some s') : Inv s' := by
  unfold handleRealtime at h
  split at h
  · cases h
  · cases h
    obtain ⟨h1, h2, h3, h4⟩ := hinv
    by_cases hrt : s.realTimeMode = true
    · simp only [serialPrintlnf, serialPrintln, hrt, Bool.not_true, Bool.false_eq_true, if_false]
      exact ⟨h1, h2, h3, fun _ _ hr => by simp [drvSetRealtimeValue, hrt] at hr⟩
    · simp only [serialPrintlnf, serialPrintln, hrt, Bool.not_false, if_true]
      exact ⟨h1, h2, h3, fun _ _ hr => by simp [drvSetRealtimeValue, drvSetMode] at hr⟩

theorem handleTestPacket_inv (s s' : State) (data : List Byte) (hinv : Inv s)
    (h : handleTestPacket s data = some s') : Inv s' := by
  unfold handleTestPacket at h
  split at h
  · cases h
  · split at h
    · cases h
      exact hinv
    · cases h

theorem handleVibrationPacket_inv (s s' : State) (data : List Byte) (hinv : Inv s)
    (h : handleVibrationPacket s data = some s') : Inv s' := by
  unfold handleVibrationPacket at h
  split at h
  · cases h
  · refine (playVibrationEffects_outputOnly _ _ _ _ h).keepsInv ?_
    obtain ⟨h1, h2, h3, -⟩ := hinv
    exact ⟨h1, h2, h3, fun _ _ _ => rfl⟩

/-- What `deletePattern` changes: only the pattern pointer, cursor, length
and the release counter; a null pointer stays null and nothing changes. -/
theorem deletePattern_spec (s s' : State) (h : deletePattern s = some s') :
    (s.currentPattern = PatternPtr.null ∧ s' = s) ∨
    (s.currentPattern ≠ PatternPtr.null ∧
      s' = { s with
        currentPattern := PatternPtr.dangling, frees := s.frees + 1,
        patternIt := 1, patternLength := 0 }) := by
  unfold deletePattern at h
  split at h
  · next hp =>
      cases h
      exact Or.inl ⟨hp, rfl⟩
  · next hp =>
      cases h
      exact Or.inr ⟨by rw [hp]; exact PatternPtr.noConfusion, rfl⟩
  · cases h

theorem handleVibrationPatternPacket_inv (s s' : State) (data : List Byte) (hinv : Inv s)
    (h : handleVibrationPatternPacket s data = some s') : Inv s' := by
  unfold handleVibrationPatternPacket at h
  split at h
  · cases h
  · simp only at h
    split at h
    · -- Play
      split at h
      · cases h
      · next s2 h2 =>
          have hs2 : Inv s2 ∧ s2.patternMode = true ∧ s2.currentPattern ≠ PatternPtr.null := by
            unfold replacePattern at h2
            split at h2
            · cases h2
            · next s1 h1 =>
                split at h2
                · cases h2
                · simp only at h2
                  split at h2
                  · cases h2
                  · split at h2
                    · cases h2
                    · cases h2
                      obtain ⟨-, i2, -, -⟩ := hinv
                      rcases deletePattern_spec _ _ h1 with ⟨-, rfl⟩ | ⟨-, rfl⟩
                      · exact ⟨⟨fun hp => by simp at hp, i2, fun _ hp => by simp at hp,
                          fun _ hp => by simp at hp⟩, rfl, by simp⟩
                      · exact ⟨⟨fun hp => by simp at hp, i2, fun _ hp => by simp at hp,
                          fun _ hp => by simp at hp⟩, rfl, by simp⟩
          obtain ⟨⟨j1, j2, -, -⟩, hpm, hne⟩ := hs2
          split at h
          · cases h
          · split at h
            · cases h
            · next s5 h5 =>
                cases h
                split at h5
                · have h5inv : Inv s5 := by
                    refine handleVibrationSoundRequest_inv _ s5 _ ?_ h5
                    exact ⟨j1, j2, fun _ hp => by simp [drvSetMode, hpm] at hp,
                      fun _ hp => by simp [drvSetMode, hpm] at hp⟩
                  have hpm5 : s5.patternMode = true := by
                    unfold handleVibrationSoundRequest at h5
                    split at h5
                    · cases h5
                    · split at h5 <;> cases h5 <;> exact hpm
                  obtain ⟨k1, k2, -, -⟩ := h5inv
                  exact ⟨k1, k2, fun _ hp => by simp [hpm5] at hp,
                    fun _ hp => by simp [hpm5] at hp⟩
                · cases h5
                  exact ⟨j1, j2, fun _ hp => by simp [drvSetMode, hpm] at hp,
                    fun _ hp => by simp [drvSetMode, hpm] at hp⟩
    · split at h
      · -- Stop
        cases h
        obtain ⟨h1, h2, -, h4⟩ := hinv
        exact ⟨h1, h2, fun _ _ => rfl, h4⟩
      · split at h
        · -- Resume
          split at h
          · cases h
            exact hinv
          · cases h
            obtain ⟨h1, h2, -, -⟩ := hinv
            exact ⟨h1, h2, fun _ hp => by simp [drvSetMode] at hp,
              fun _ hp => by simp [drvSetMode] at hp⟩
        · cases h
          exact hinv

theorem soundLeaveOtherModes_spec (s s' : State) (h : soundLeaveOtherModes s = some s') :
    s'.realTimeMode = false ∧ s'.patternMode = false ∧ s'.audioMode = s.audioMode ∧
    s'.chunkQueue = s.chunkQueue ∧
    ((s'.currentPattern = s.currentPattern ∧ s'.patternIt = s.patternIt ∧
        s'.patternLength = s.patternLength) ∨
      (s.patternMode = true ∧ s.currentPattern ≠ PatternPtr.null ∧
        s'.currentPattern = PatternPtr.dangling ∧ s'.patternIt = 1 ∧
        s'.patternLength = 0)) := by
  have hrt : (if s.realTimeMode then { s with realTimeMode := false } else s)
      = { s with realTimeMode := false } := by
    split
    · rfl
    · next hf =>
        have : s.realTimeMode = false := by simpa using hf
        rw [← this]
  unfold soundLeaveOtherModes at h
  simp only [hrt] at h
  split at h
  · next hpm =>
      split at h
      · cases h
      · next t ht =>
          cases h
          rcases deletePattern_spec _ _ ht with ⟨-, rfl⟩ | ⟨hnn, rfl⟩
          · exact ⟨rfl, rfl, rfl, rfl, Or.inl ⟨rfl, rfl, rfl⟩⟩
          · exact ⟨rfl, rfl, rfl, rfl, Or.inr ⟨hpm, hnn, rfl, rfl, rfl⟩⟩
  · next hpm =>
      cases h
      exact ⟨rfl, by simpa using hpm, rfl, rfl, Or.inl ⟨rfl, rfl, rfl⟩⟩

theorem soundEnterAudio_spec (s s' : State) (h : soundEnterAudio s = some s') :
    s'.audioMode = true ∧ s'.realTimeMode = s.realTimeMode ∧ s'.patternMode = s.patternMode ∧
    s'.chunkQueue.length = s.chunkQueue.length ∧
    s'.currentPattern = s.currentPattern ∧ s'.patternIt = s.patternIt ∧
    s'.patternLength = s.patternLength := by
  unfold soundEnterAudio at h
  split at h
  · simp only at h
    split at h
    · cases h
    · next s10 h10 =>
        cases h
        unfold dacPlayFront at h10
        split at h10
        · cases h10
        · next c rest hq =>
            cases h10
            have hq' : s.chunkQueue = c :: rest := hq
            refine ⟨rfl, rfl, rfl, ?_, rfl, rfl, rfl⟩
            show (_ :: rest).length = _
            rw [hq']
            rfl
  · next hau =>
      cases h
      exact ⟨by simpa using hau, rfl, rfl, rfl, rfl, rfl, rfl⟩

/-- What a handled Sound packet establishes. -/
theorem handleVibrationSound_spec (s s' : State) (data : List Byte)
    (h : handleVibrationSound s data = some s') :
    s'.audioMode = true ∧ s'.realTimeMode = false ∧ s'.patternMode = false ∧
    s'.chunkQueue.length = s.chunkQueue.length + 1 ∧
    ((s'.currentPattern = s.currentPattern ∧ s'.patternIt = s.patternIt ∧
        s'.patternLength = s.patternLength) ∨
      (s.patternMode = true ∧ s.currentPattern ≠ PatternPtr.null ∧
        s'.currentPattern = PatternPtr.dangling ∧ s'.patternIt = 1 ∧
        s'.patternLength = 0)) := by
  unfold handleVibrationSound at h
  split at h
  · simp only at h
    split at h
    · cases h
    · split at h
      · cases h
      · split at h
        · cases h
        · next s4 h4 =>
            obtain ⟨a1, a2, a3, a4, a5⟩ := soundLeaveOtherModes_spec _ _ h4
            obtain ⟨b1, b2, b3, b4, b5, b6, b7⟩ := soundEnterAudio_spec _ _ h
            refine ⟨b1, b2.trans a1, b3.trans a2, ?_, ?_⟩
            · rw [b4, a4]
              simp [serialPrintlnf, serialPrintln]
            · rw [b5, b6, b7]
              exact a5
  · cases h

theorem handleVibrationSound_inv (s s' : State) (data : List Byte) (hinv : Inv s)
    (h : handleVibrationSound s data = some s') : Inv s' := by
  obtain ⟨a1, -, -, -, a5⟩ := handleVibrationSound_spec s s' data h
  refine ⟨?_, fun hp => by simp [a1] at hp, fun hp => by simp [a1] at hp,
    fun hp => by simp [a1] at hp⟩
  intro hnull
  rcases a5 with ⟨c1, c2, c3⟩ | ⟨-, -, c, -⟩
  · rw [c2, c3]
    exact hinv.1 (c1 ▸ hnull)
  · rw [c] at hnull
    cases hnull

theorem onChunkBufferTimer_outputOnly (s s' : State) (h : onChunkBufferTimer s = some s') :
    OutputOnly s s' := by
  unfold onChunkBufferTimer at h
  split at h
  · cases h
    exact OutputOnly.refl s
  · have h1 : OutputOnly s
        (serialPrintlnf { serialPrintlnf s with it1 := (serialPrintlnf s).it1 + 1 }) :=
      ⟨_, _, _, _, _, _, _, _, rfl⟩
    refine h1.trans (forRange_outputOnly _ ?_ _ _ _ _ h)
    intro i t t' hb
    cases hb
    exact ⟨_, _, _, _, _, _, _, _, rfl⟩

/-- What the playback tick leaves alone: everything but the chunk queue,
the renderer log, the two deferred flags and the counters; outside audio
mode the queue is left alone as well. -/
theorem onAudioPlaybackTimer_frame (s s' : State) (h : onAudioPlaybackTimer s = some s') :
    s'.audioMode = s.audioMode ∧ s'.patternMode = s.patternMode ∧
    s'.realTimeMode = s.realTimeMode ∧ s'.currentPattern = s.currentPattern ∧
    s'.patternIt = s.patternIt ∧ s'.patternLength = s.patternLength ∧
    s'.chunkBufferTimer = s.chunkBufferTimer ∧ s'.audioPlaybackTimer = s.audioPlaybackTimer ∧
    s'.drv = s.drv ∧ s'.regACCouple = s.regACCouple ∧ s'.regPWMAnalog = s.regPWMAnalog ∧
    s'.drvCalls = s.drvCalls ∧ s'.btWrites = s.btWrites ∧
    (s.audioMode = false → s'.chunkQueue = s.chunkQueue) := by
  unfold onAudioPlaybackTimer at h
  simp only at h
  split at h
  · next hau =>
      have hq : ∀ q : List WavChunk, s.audioMode = false → q = s.chunkQueue := by
        intro q hf
        rw [hau] at hf
        cases hf
      split at h
      · cases h
        exact ⟨rfl, rfl, rfl, rfl, rfl, rfl, rfl, rfl, rfl, rfl, rfl, rfl, rfl, fun _ => rfl⟩
      · split at h
        · split at h
          · cases h
            exact ⟨rfl, rfl, rfl, rfl, rfl, rfl, rfl, rfl, rfl, rfl, rfl, rfl, rfl, hq _⟩
          · split at h
            · cases h
            · next s3 h3 =>
                unfold dacPlayFront at h3
                split at h3
                · cases h3
                · cases h3
                  split at h <;> cases h <;>
                    exact ⟨rfl, rfl, rfl, rfl, rfl, rfl, rfl, rfl, rfl, rfl, rfl, rfl, rfl, hq _⟩
        · split at h <;> cases h <;>
            exact ⟨rfl, rfl, rfl, rfl, rfl, rfl, rfl, rfl, rfl, rfl, rfl, rfl, rfl, fun _ => rfl⟩
  · split at h <;> cases h <;>
      exact ⟨rfl, rfl, rfl, rfl, rfl, rfl, rfl, rfl, rfl, rfl, rfl, rfl, rfl, fun _ => rfl⟩

theorem onAudioPlaybackTimer_inv (s s' : State) (hinv : Inv s)
    (h : onAudioPlaybackTimer s = some s') : Inv s' := by
  obtain ⟨a1, a2, a3, a4, a5, a6, a7, a8, a9, a10, a11, -, -, a12⟩ :=
    onAudioPlaybackTimer_frame s s' h
  obtain ⟨h1, h2, h3, h4⟩ := hinv
  unfold Inv
  rw [a1, a2, a3, a4, a5, a6, a7, a8, a9, a10, a11]
  refine ⟨h1, fun hp => ?_, h3, h4⟩
  rw [a12 hp]
  exact h2 hp

theorem loopExitAudio_inv (s s' : State) (hinv : Inv s) (h : loopExitAudio s = some s') :
    Inv s' := by
  unfold loopExitAudio at h
  split at h
  · split at h
    · cases h
    · next s1 h1 =>
        cases h
        exact (handleVibrationSoundRequest_inv s s1 _ hinv h1 : Inv s1)
  · cases h
    exact hinv

theorem loopPatternAdvance_inv (s s' : State) (hinv : Inv s)
    (h : loopPatternAdvance s = some s') : Inv s' := by
  unfold loopPatternAdvance at h
  split at h
  · split at h
    · split at h
      · next buf hp =>
          split at h
          · cases h
          · split at h
            · cases h
            · cases h
              obtain ⟨-, h2, h3, h4⟩ := hinv
              refine ⟨fun hn => ?_, h2, h3, h4⟩
              have hn' : s.currentPattern = PatternPtr.null := hn
              rw [hp] at hn'
              cases hn'
      · cases h
    · cases h
      exact hinv
  · cases h
    exact hinv

theorem loopDeferred_inv (s s' : State) (hinv : Inv s) (h : loopDeferred s = some s') :
    Inv s' := by
  unfold loopDeferred at h
  split at h
  · cases h
  · next s1 h1 => exact loopPatternAdvance_inv _ _ (loopExitAudio_inv _ _ hinv h1) h

theorem handlePacket_inv (s s' : State) (packetType : Int) (data : List Byte) (hinv : Inv s)
    (h : handlePacket s packetType data = some s') : Inv s' := by
  unfold handlePacket at h
  split at h
  · exact handleTestPacket_inv _ _ _ hinv h
  · split at h
    · exact handleVibrationPacket_inv _ _ _ hinv h
    · split at h
      · exact handleVibrationPatternPacket_inv _ _ _ hinv h
      · split at h
        · exact handleVibrationSound_inv _ _ _ hinv h
        · split at h
          · exact handleVibrationSoundRequest_inv _ _ _ hinv h
          · split at h
            · exact handleRealtime_inv _ _ _ hinv h
            · cases h
              exact hinv

theorem step_inv (s s' : State) (e : Event) (hinv : Inv s) (h : step s e = some s') :
    Inv s' := by
  cases e with
  | packet packetType data => exact handlePacket_inv _ _ _ _ hinv h
  | drain => exact loopDeferred_inv _ _ hinv h
  | chunkBufferTick =>
      simp only [step] at h
      split at h
      · exact (onChunkBufferTimer_outputOnly _ _ h).keepsInv hinv
      · cases h
  | audioPlaybackTick =>
      simp only [step] at h
      split at h
      · exact onAudioPlaybackTimer_inv _ _ hinv h
      · cases h
  | rendererDone i =>
      simp only [step] at h
      split at h
      · cases h
      · next c hc =>
          cases h
          obtain ⟨h1, h2, h3, h4⟩ := hinv
          refine ⟨h1, fun hp => ?_, h3, h4⟩
          have hq := (h2 hp).2.1
          rw [hq] at hc
          simp at hc

theorem run_inv (es : List Event) : ∀ (s s' : State), Inv s → run s es = some s' → Inv s' := by
  induction es with
  | nil =>
      intro s s' hinv h
      simp only [run, Option.some.injEq] at h
      exact h ▸ hinv
  | cons e es ih =>
      intro s s' hinv h
      simp only [run] at h
      split at h
      · cases h
      · next s1 h1 => exact ih s1 s' (step_inv _ _ _ hinv h1) h

theorem setup_inv (d : Drv) : Inv (setup d) :=
  ⟨fun _ => ⟨rfl, rfl⟩, fun _ => ⟨rfl, rfl, rfl, rfl⟩, fun _ _ => rfl, fun _ _ _ => rfl⟩

theorem Reachable.inv {s : State} (h : Reachable s) : Inv s := by
  obtain ⟨d, es, hrun⟩ := h
  exact run_inv es _ _ (setup_inv d) hrun

/-! ## Pattern packets -/

theorem readInt32_drop (data : List Byte) (k off : Nat) :
    readInt32 (data.drop k) off = readInt32 data (k + off) := by
  unfold readInt32
  simp only [List.getElem?_drop, Nat.add_assoc]

theorem readInt32_two : readInt32 (int32Bytes 2) 0 = some 2 := by decide

theorem toUInt64_split (b : Byte) : toUInt64 (charToInt b * 1000) = b.val * 1000 := by
  unfold toUInt64 charToInt
  have := b.isLt
  omega

/-- Result of `replacePattern` on a state whose pattern pointer is null or
live. -/
theorem replacePattern_spec (s : State) (data1 : List Byte) (len : Int)
    (hnd : s.currentPattern ≠ PatternPtr.dangling)
    (hnull : s.currentPattern = PatternPtr.null → s.patternIt = 1)
    (hr : readInt32 data1 0 = some len) (hnn : 0 ≤ len) (hl : len.toNat + 4 ≤ data1.length) :
    ∃ s2 : State, replacePattern s data1 = some s2 ∧
      s2.patternIt = 1 ∧ s2.patternLength = len ∧
      s2.currentPattern = PatternPtr.live ((data1.drop 4).take len.toNat) ∧
      s2.audioMode = s.audioMode ∧ s2.patternMode = s.patternMode ∧
      s2.realTimeMode = s.realTimeMode ∧
      s2.audioPlaybackTimer = s.audioPlaybackTimer ∧
      s2.chunkBufferTimer = s.chunkBufferTimer ∧
      s2.chunkQueue = s.chunkQueue ∧ s2.drv = s.drv ∧ s2.drvCalls = s.drvCalls ∧
      s2.regACCouple = s.regACCouple ∧ s2.regPWMAnalog = s.regPWMAnalog := by
  have hl2 : ¬ (data1.drop 4).length < len.toNat := by
    rw [List.length_drop]
    omega
  have hneg : ¬ len < 0 := not_lt.mpr hnn
  unfold replacePattern deletePattern
  cases hp : s.currentPattern with
  | null =>
      simp only [hr, if_neg hneg, if_neg hl2]
      exact ⟨_, rfl, hnull hp, rfl, rfl, rfl, rfl, rfl, rfl, rfl, rfl, rfl, rfl, rfl, rfl⟩
  | live buf =>
      simp only [hr, if_neg hneg, if_neg hl2]
      exact ⟨_, rfl, rfl, rfl, rfl, rfl, rfl, rfl, rfl, rfl, rfl, rfl, rfl, rfl, rfl⟩
  | dangling => exact absurd hp hnd

/-- Result of the audio exit path: `handleVibrationSoundRequest` with
request kind 2 always returns, and the state it returns is described field
by field. -/
theorem handleVibrationSoundRequest_stop (s : State) (data : List Byte)
    (h : readInt32 data 0 = some 2) :
    ∃ s' : State, handleVibrationSoundRequest s data = some s' ∧
      s'.audioMode = false ∧ s'.chunkQueue = [] ∧
      s'.chunkBufferTimer = { s.chunkBufferTimer with enabled := false } ∧
      s'.audioPlaybackTimer = { s.audioPlaybackTimer with enabled := false } ∧
      s'.drv = { s.drv with
        mode := DRV2605_MODE_INTTRIG,
        regs := fun r =>
          if r = REG_N_PWM_ANALOG then s.regPWMAnalog
          else if r = REG_AC_COUPLE then s.regACCouple else s.drv.regs r } ∧
      s'.patternMode = s.patternMode ∧ s'.realTimeMode = s.realTimeMode ∧
      s'.currentPattern = s.currentPattern ∧ s'.patternIt = s.patternIt ∧
      s'.patternLength = s.patternLength ∧
      s'.playNextPatternFlag = s.playNextPatternFlag ∧
      s'.exitAudiomodeFlag = s.exitAudiomodeFlag ∧
      s'.regACCouple = s.regACCouple ∧ s'.regPWMAnalog = s.regPWMAnalog ∧
      s'.it1 = s.it1 ∧ s'.it2 = s.it2 ∧ s'.btIn = s.btIn ∧ s'.btWrites = s.btWrites ∧
      s'.drvCalls = s.drvCalls ++
        [DrvCall.setMode DRV2605_MODE_INTTRIG,
         DrvCall.writeRegister8 REG_AC_COUPLE s.regACCouple,
         DrvCall.writeRegister8 REG_N_PWM_ANALOG s.regPWMAnalog] ∧
      s'.dacCalls = s.dacCalls ++ [DacCall.stopAllSounds] := by
  unfold handleVibrationSoundRequest
  simp only [h, if_true]
  refine ⟨_, rfl, rfl, rfl, rfl, rfl, rfl, rfl, rfl, rfl, rfl, rfl, rfl, rfl, rfl, rfl, rfl,
    rfl, rfl, rfl, ?_, rfl⟩
  simp [drvWriteRegister8, drvSetMode, dacStopAllSounds]

/-- C5, as stated, fails: in the payload `playPayload` the byte immediately
after the length field is 10 and the next byte is 20; the playback alarm is
written with 20 * 1000, not 10 * 1000. -/
theorem C5_interval_byte_counterexample :
    ∃ s' : State,
      handleVibrationPatternPacket bootState playPayload = some s' ∧
      readInt32 playPayload 0 = some PatternStatus.Play ∧
      readInt32 playPayload 4 = some 2 ∧
      playPayload[8]? = some 10 ∧
      s'.audioPlaybackTimer.alarmValue = 20 * 1000 ∧
      s'.audioPlaybackTimer.alarmValue ≠ 10 * 1000 :=
  ⟨_, rfl, by decide, by decide, by decide, rfl, by decide⟩

/-- C5, amended: for a Pattern-Play payload (status 1, then an int32 length
`len >= 0`, then at least `len` pattern bytes and at least two bytes) and a
reachable prior state whose pattern pointer is null or live,
`handleVibrationPatternPacket` returns; afterwards the cursor `patternIt` is
1, `patternLength` is `len`, the installed pattern is the `len` bytes that
follow the length field, and the playback alarm has been written with 1000
times the second byte after the length field (the pattern byte at index 1,
the code skips the first value) and is enabled. -/
theorem C5_pattern_play_installs (s : State) (data : List Byte) (len : Int) (b : Byte)
    (hreach : Reachable s) (hnd : s.currentPattern ≠ PatternPtr.dangling)
    (hstatus : readInt32 data 0 = some PatternStatus.Play)
    (hlen : readInt32 data 4 = some len) (hnn : 0 ≤ len)
    (hdata : len.toNat + 8 ≤ data.length) (hb : data[9]? = some b) :
    ∃ s' : State,
      handleVibrationPatternPacket s data = some s' ∧
      s'.patternIt = 1 ∧ s'.patternLength = len ∧
      s'.currentPattern = PatternPtr.live ((data.drop 8).take len.toNat) ∧
      s'.audioPlaybackTimer.alarmValue = b.val * 1000 ∧
      s'.audioPlaybackTimer.enabled = true ∧
      s'.patternMode = true := by
  have hr : readInt32 (data.drop 4) 0 = some len := by
    rw [readInt32_drop]
    exact hlen
  have hsplit : getPatternSplitTime (data.drop 4) = some b := by
    unfold getPatternSplitTime
    simp only [List.getElem?_drop]
    exact hb
  have hl : len.toNat + 4 ≤ (data.drop 4).length := by
    rw [List.length_drop]
    omega
  obtain ⟨s2, hs2, p1, p2, p3, p4, p5, -, p7, -⟩ :=
    replacePattern_spec { s with patternMode := true } (data.drop 4) len hnd
      (fun hp => (hreach.inv.1 hp).1) hr hnn hl
  have hdrop : (data.drop 4).drop 4 = data.drop 8 := by
    rw [List.drop_drop]
  rw [hdrop] at p3
  unfold handleVibrationPatternPacket
  simp only [hstatus, if_true, hs2, hsplit]
  by_cases hau : s.audioMode = true
  · have hau4 : (drvSetMode { s2 with
        audioPlaybackTimer :=
          { s2.audioPlaybackTimer with
            alarmValue := toUInt64 (charToInt b * 1000), autoreload := true } }
        DRV2605_MODE_REALTIME).audioMode = true := p4.trans hau
    obtain ⟨s5, hs5, -, -, -, q4, -, q6, -, q8, q9, q10, -⟩ :=
      handleVibrationSoundRequest_stop (drvSetMode { s2 with
        audioPlaybackTimer :=
          { s2.audioPlaybackTimer with
            alarmValue := toUInt64 (charToInt b * 1000), autoreload := true } }
        DRV2605_MODE_REALTIME) (int32Bytes 2) readInt32_two
    simp only [hau4, if_true, hs5]
    refine ⟨_, rfl, q9.trans p1, q10.trans p2, q8.trans p3, ?_, rfl, q6.trans p5⟩
    show s5.audioPlaybackTimer.alarmValue = _
    rw [q4]
    exact toUInt64_split b
  · have hau4 : ¬ (drvSetMode { s2 with
        audioPlaybackTimer :=
          { s2.audioPlaybackTimer with
            alarmValue := toUInt64 (charToInt b * 1000), autoreload := true } }
        DRV2605_MODE_REALTIME).audioMode = true := fun hc => hau (p4.symm.trans hc)
    simp only [hau4, if_false]
    exact ⟨_, rfl, p1, p2, p3, toUInt64_split b, rfl, p5⟩

/-- Witness for C5 (amended): the payload `playPayload` on the state after
`setup()`. -/
theorem C5_pattern_play_installs_witness :
    ∃ s' : State,
      handleVibrationPatternPacket bootState playPayload = some s' ∧
      s'.patternIt = 1 ∧ s'.patternLength = 2 ∧
      s'.currentPattern = PatternPtr.live ((playPayload.drop 8).take (2 : Int).toNat) ∧
      s'.audioPlaybackTimer.alarmValue = (20 : Byte).val * 1000 ∧
      s'.audioPlaybackTimer.enabled = true ∧
      s'.patternMode = true :=
  C5_pattern_play_installs bootState playPayload 2 20 ⟨bootDrv, [], rfl⟩ (by decide)
    (by decide) (by decide) (by decide) (by decide) (by decide)

/-- The deferred exit at the head of `loop()` always returns and leaves the
pattern bookkeeping alone. -/
theorem loopExitAudio_frame (s : State) :
    ∃ s1 : State, loopExitAudio s = some s1 ∧
      s1.currentPattern = s.currentPattern ∧ s1.patternIt = s.patternIt ∧
      s1.patternLength = s.patternLength ∧
      s1.playNextPatternFlag = s.playNextPatternFlag := by
  unfold loopExitAudio
  split
  · obtain ⟨s5, hs5, -, -, -, -, -, -, -, q8, q9, q10, q11, -⟩ :=
      handleVibrationSoundRequest_stop s (int32Bytes 2) readInt32_two
    simp only [hs5]
    exact ⟨_, rfl, q8, q9, q10, q11⟩
  · exact ⟨_, rfl, rfl, rfl, rfl, rfl⟩

/-- C6: with a pattern installed (live buffer `buf`) and cursor
`c = patternIt`, Pattern-Stop followed by Pattern-Resume both return; after
Stop the playback alarm is disabled, after Resume it is enabled again; the
cursor, the pattern data and `patternLength` are unchanged by both. Outside
audio mode the next playback tick then requests an advance, and whenever an
advance is requested after that tick with `c` inside the pattern, the
deferred drain writes the pattern byte at index `c` as realtime value and
moves the cursor to `c + 2`. -/
theorem C6_stop_resume_keeps_cursor (s : State) (buf stop resume : List Byte)
    (hlive : s.currentPattern = PatternPtr.live buf)
    (hstop : readInt32 stop 0 = some PatternStatus.Stop)
    (hresume : readInt32 resume 0 = some PatternStatus.Resume) :
    ∃ s1 s2 : State,
      handleVibrationPatternPacket s stop = some s1 ∧
      handleVibrationPatternPacket s1 resume = some s2 ∧
      s1.audioPlaybackTimer.enabled = false ∧
      s1.patternIt = s.patternIt ∧ s1.currentPattern = PatternPtr.live buf ∧
      s1.patternLength = s.patternLength ∧
      s2.audioPlaybackTimer.enabled = true ∧
      s2.patternIt = s.patternIt ∧ s2.currentPattern = PatternPtr.live buf ∧
      s2.patternLength = s.patternLength ∧
      (s.audioMode = false →
        ∃ s3 : State, onAudioPlaybackTimer s2 = some s3 ∧ s3.playNextPatternFlag = true) ∧
      (∀ (s3 : State) (b : Byte), onAudioPlaybackTimer s2 = some s3 →
        s3.playNextPatternFlag = true →
        s.patternIt < s.patternLength → 0 ≤ s.patternIt →
        buf[s.patternIt.toNat]? = some b →
        ∃ s4 : State, loopDeferred s3 = some s4 ∧
          s4.drvCalls.getLast? = some (DrvCall.setRealtimeValue b.val) ∧
          s4.drv.rtp = b.val ∧
          s4.patternIt = s.patternIt + 2 ∧
          s4.playNextPatternFlag = false) := by
  have hne : ¬ s.currentPattern = PatternPtr.null := by
    rw [hlive]
    exact PatternPtr.noConfusion
  have e21 : ¬ PatternStatus.Stop = PatternStatus.Play := by decide
  have e31 : ¬ PatternStatus.Resume = PatternStatus.Play := by decide
  have e32 : ¬ PatternStatus.Resume = PatternStatus.Stop := by decide
  refine ⟨{ s with audioPlaybackTimer := { s.audioPlaybackTimer with enabled := false } },
    { drvSetMode
        { s with
          audioPlaybackTimer := { s.audioPlaybackTimer with enabled := false },
          patternMode := true } DRV2605_MODE_REALTIME with
      audioPlaybackTimer := { s.audioPlaybackTimer with enabled := true } },
    ?_, ?_, rfl, rfl, hlive, rfl, ?_, ?_, ?_, ?_, ?_, ?_⟩
  · simp only [handleVibrationPatternPacket, hstop, if_neg e21, if_true]
  · simp only [handleVibrationPatternPacket, hresume, if_neg e31, if_neg e32, if_true,
      if_neg hne]
    rfl
  · rfl
  · rfl
  · exact hlive
  · rfl
  · intro hau
    simp only [onAudioPlaybackTimer, drvSetMode, hau, Bool.false_eq_true, if_false, if_true]
    exact ⟨_, rfl, rfl⟩
  · intro s3 b htick hflag hlt hnn hb
    obtain ⟨-, -, -, a4, a5, a6, -⟩ := onAudioPlaybackTimer_frame _ s3 htick
    obtain ⟨t, ht, b1, b2, b3, b4⟩ := loopExitAudio_frame s3
    have c1 : t.currentPattern = PatternPtr.live buf := by
      rw [b1, a4]
      exact hlive
    have c2 : t.patternIt = s.patternIt := by
      rw [b2, a5]
      rfl
    have c3 : t.patternLength = s.patternLength := by
      rw [b3, a6]
      rfl
    have c4 : t.playNextPatternFlag = true := by rw [b4, hflag]
    have hlt' : t.patternIt < t.patternLength := by rw [c2, c3]; exact hlt
    have hnn' : ¬ t.patternIt < 0 := by rw [c2]; exact not_lt.mpr hnn
    have hb' : buf[t.patternIt.toNat]? = some b := by rw [c2]; exact hb
    simp only [loopDeferred, ht, loopPatternAdvance, c4, if_true, hlt', c1, if_neg hnn', hb']
    refine ⟨_, rfl, ?_, rfl, ?_, rfl⟩
    · simp [drvSetRealtimeValue]
    · show t.patternIt + 2 = _
      rw [c2]

/-- Witness for C6: the state after one Pattern-Play packet. -/
theorem C6_stop_resume_keeps_cursor_witness :
    ∃ s1 s2 : State,
      handleVibrationPatternPacket patternState [2, 0, 0, 0] = some s1 ∧
      handleVibrationPatternPacket s1 [3, 0, 0, 0] = some s2 ∧
      s1.audioPlaybackTimer.enabled = false ∧
      s1.patternIt = patternState.patternIt ∧ s1.currentPattern = PatternPtr.live [10, 20] ∧
      s1.patternLength = patternState.patternLength ∧
      s2.audioPlaybackTimer.enabled = true ∧
      s2.patternIt = patternState.patternIt ∧ s2.currentPattern = PatternPtr.live [10, 20] ∧
      s2.patternLength = patternState.patternLength ∧
      (patternState.audioMode = false →
        ∃ s3 : State, onAudioPlaybackTimer s2 = some s3 ∧ s3.playNextPatternFlag = true) ∧
      (∀ (s3 : State) (b : Byte), onAudioPlaybackTimer s2 = some s3 →
        s3.playNextPatternFlag = true →
        patternState.patternIt < patternState.patternLength → 0 ≤ patternState.patternIt →
        ([10, 20] : List Byte)[patternState.patternIt.toNat]? = some b →
        ∃ s4 : State, loopDeferred s3 = some s4 ∧
          s4.drvCalls.getLast? = some (DrvCall.setRealtimeValue b.val) ∧
          s4.drv.rtp = b.val ∧
          s4.patternIt = patternState.patternIt + 2 ∧
          s4.playNextPatternFlag = false) :=
  C6_stop_resume_keeps_cursor patternState [10, 20] [2, 0, 0, 0] [3, 0, 0, 0] rfl
    (by decide) (by decide)

/-! ## Refill tick -/

theorem requestNewAudioChunk_eq (s : State) :
    requestNewAudioChunk s = { s with btWrites := s.btWrites ++ [soundRequestPacket] } := by
  have hp : int32Bytes PacketType.VibrationSoundRequest ++ int32Bytes 4 ++ int32Bytes 1
      = soundRequestPacket := by decide
  simp only [requestNewAudioChunk, hp]

theorem forRange_requests :
    ∀ (n : Nat) (lo : Int) (s : State),
      forRange (fun _ t => some (requestNewAudioChunk t)) lo n s
        = some { s with btWrites := s.btWrites ++ List.replicate n soundRequestPacket } := by
  intro n
  induction n with
  | zero =>
      intro lo s
      simp [forRange]
  | succ n ih =>
      intro lo s
      simp only [forRange]
      rw [ih, requestNewAudioChunk_eq]
      simp only [List.replicate_succ, List.append_assoc, List.singleton_append]

/-- The deficit computed by the refill tick, for a queue that fits the
address space. -/
theorem refill_diff (n : Nat) (h : n < 2147483648) :
    (toInt32 (toUInt32 ((toUInt32 CHUNK_QUEUE_TARGET_SIZE : Int) - (n : Int)))).toNat
      = (max (0 : Int) (5 - (n : Int))).toNat := by
  have h5 : toUInt32 CHUNK_QUEUE_TARGET_SIZE = 5 := by decide
  rw [h5]
  unfold toInt32 toUInt32
  omega

/-- Result of one refill tick on a state whose queue fits the address
space. -/
theorem onChunkBufferTimer_spec (s : State) (hsize : s.chunkQueue.length < 2147483648) :
    ∃ s' : State,
      onChunkBufferTimer s = some s' ∧
      s'.btWrites = s.btWrites ++
        List.replicate
          (if s.audioMode then (max (0 : Int) (5 - (s.chunkQueue.length : Int))).toNat else 0)
          soundRequestPacket ∧
      s'.chunkQueue = s.chunkQueue ∧ s'.audioMode = s.audioMode ∧
      s'.patternMode = s.patternMode ∧ s'.realTimeMode = s.realTimeMode := by
  by_cases hau : s.audioMode = true
  · have hrun : onChunkBufferTimer s = some
        { serialPrintlnf { serialPrintlnf s with it1 := (serialPrintlnf s).it1 + 1 } with
          btWrites := s.btWrites ++
            List.replicate (max (0 : Int) (5 - (s.chunkQueue.length : Int))).toNat
              soundRequestPacket } := by
      unfold onChunkBufferTimer
      simp only [hau, Bool.not_true, Bool.false_eq_true, if_false]
      rw [forRange_requests]
      have hq : (serialPrintlnf s).chunkQueue.length = s.chunkQueue.length := rfl
      rw [hq, refill_diff _ hsize]
      rfl
    obtain ⟨s', hs', hbt⟩ : ∃ s' : State, onChunkBufferTimer s = some s' ∧
        s'.btWrites = s.btWrites ++
          List.replicate (max (0 : Int) (5 - (s.chunkQueue.length : Int))).toNat
            soundRequestPacket := ⟨_, hrun, rfl⟩
    have hframe : s'.chunkQueue = s.chunkQueue ∧ s'.audioMode = s.audioMode ∧
        s'.patternMode = s.patternMode ∧ s'.realTimeMode = s.realTimeMode := by
      obtain ⟨_, _, _, _, _, _, _, _, rfl⟩ := onChunkBufferTimer_outputOnly s s' hs'
      exact ⟨rfl, rfl, rfl, rfl⟩
    refine ⟨s', hs', ?_, hframe⟩
    rw [hbt]
    simp only [hau, if_true]
  · have hf : s.audioMode = false := by simpa using hau
    have hrun : onChunkBufferTimer s = some s := by
      unfold onChunkBufferTimer
      simp only [hf, Bool.not_false, if_true]
    refine ⟨s, hrun, ?_, rfl, rfl, rfl, rfl⟩
    simp only [hf, Bool.false_eq_true, if_false, List.replicate_zero, List.append_nil]

/-- C7: for every state whose chunk queue fits the 32 bit address space
(fewer than 2^31 chunks), one refill tick returns and writes exactly
`max(0, 5 - n)` SoundRequest packets to the transport when `audioMode` is
true and the queue holds `n` chunks, with the difference computed in `size_t`
and converted to `int` as the code does, and writes none when `audioMode` is
false. In particular it writes 3 packets for `n = 2` and none for `n >= 5`.
The queue and the mode flags are unchanged. -/
theorem C7_refill_tick (s : State) (hsize : s.chunkQueue.length < 2147483648) :
    ∃ s' : State,
      onChunkBufferTimer s = some s' ∧
      s'.btWrites = s.btWrites ++
        List.replicate
          (if s.audioMode then (max (0 : Int) (5 - (s.chunkQueue.length : Int))).toNat else 0)
          soundRequestPacket ∧
      (s.audioMode = true → s.chunkQueue.length = 2 →
        s'.btWrites = s.btWrites ++ [soundRequestPacket, soundRequestPacket, soundRequestPacket]) ∧
      (5 ≤ s.chunkQueue.length → s'.btWrites = s.btWrites) ∧
      (s.audioMode = false → s'.btWrites = s.btWrites) ∧
      s'.chunkQueue = s.chunkQueue ∧ s'.audioMode = s.audioMode ∧
      s'.patternMode = s.patternMode ∧ s'.realTimeMode = s.realTimeMode := by
  obtain ⟨s', hs', hbt, hframe⟩ := onChunkBufferTimer_spec s hsize
  refine ⟨s', hs', hbt, ?_, ?_, ?_, hframe⟩
  · intro hau h2
    rw [hbt, hau, h2]
    rfl
  · intro h5
    have h0 : (max (0 : Int) (5 - (s.chunkQueue.length : Int))).toNat = 0 := by omega
    rw [hbt, h0]
    simp
  · intro hf
    rw [hbt, hf]
    simp

/-- Witness for C7: audio mode with two chunks queued. -/
theorem C7_refill_tick_witness :
    ∃ s' : State,
      onChunkBufferTimer audioState2 = some s' ∧
      s'.btWrites = audioState2.btWrites ++
        List.replicate
          (if audioState2.audioMode then
            (max (0 : Int) (5 - (audioState2.chunkQueue.length : Int))).toNat else 0)
          soundRequestPacket ∧
      (audioState2.audioMode = true → audioState2.chunkQueue.length = 2 →
        s'.btWrites = audioState2.btWrites
          ++ [soundRequestPacket, soundRequestPacket, soundRequestPacket]) ∧
      (5 ≤ audioState2.chunkQueue.length → s'.btWrites = audioState2.btWrites) ∧
      (audioState2.audioMode = false → s'.btWrites = audioState2.btWrites) ∧
      s'.chunkQueue = audioState2.chunkQueue ∧ s'.audioMode = audioState2.audioMode ∧
      s'.patternMode = audioState2.patternMode ∧ s'.realTimeMode = audioState2.realTimeMode :=
  C7_refill_tick audioState2 (by decide)

/-! ## The pattern cursor stays inside the pattern -/

theorem patInv_of_same {s s' : State} (h1 : s'.currentPattern = s.currentPattern)
    (h2 : s'.patternIt = s.patternIt) (h3 : s'.patternLength = s.patternLength)
    (hinv : PatInv s) : PatInv s' := by
  unfold PatInv at hinv ⊢
  rw [h1, h2, h3]
  exact hinv

theorem OutputOnly.keepsPatInv {s s' : State} (h : OutputOnly s s') (hinv : PatInv s) :
    PatInv s' := by
  obtain ⟨_, _, _, _, _, _, _, _, rfl⟩ := h
  exact hinv

theorem handleVibrationSoundRequest_patSame (s s' : State) (data : List Byte)
    (h : handleVibrationSoundRequest s data = some s') :
    s'.currentPattern = s.currentPattern ∧ s'.patternIt = s.patternIt ∧
    s'.patternLength = s.patternLength ∧ s'.playNextPatternFlag = s.playNextPatternFlag := by
  unfold handleVibrationSoundRequest at h
  split at h
  · cases h
  · split at h <;> cases h <;> exact ⟨rfl, rfl, rfl, rfl⟩

theorem handleRealtime_patSame (s s' : State) (data : List Byte)
    (h : handleRealtime s data = some s') :
    s'.currentPattern = s.currentPattern ∧ s'.patternIt = s.patternIt ∧
    s'.patternLength = s.patternLength := by
  unfold handleRealtime at h
  split at h
  · cases h
  · cases h
    simp only [drvSetRealtimeValue]
    split <;> exact ⟨rfl, rfl, rfl⟩

theorem handleTestPacket_patSame (s s' : State) (data : List Byte)
    (h : handleTestPacket s data = some s') :
    s'.currentPattern = s.currentPattern ∧ s'.patternIt = s.patternIt ∧
    s'.patternLength = s.patternLength := by
  unfold handleTestPacket at h
  split at h
  · cases h
  · split at h <;> cases h
    exact ⟨rfl, rfl, rfl⟩

/-- A pattern installed by `replacePattern` has the announced length and the
cursor at 1. -/
theorem replacePattern_patInv (s s' : State) (data : List Byte)
    (hinv : PatInv s) (h : replacePattern s data = some s') : PatInv s' := by
  unfold replacePattern at h
  split at h
  · cases h
  · next s1 h1 =>
      split at h
      · cases h
      · next len hlen =>
          simp only at h
          split at h
          · cases h
          · next hneg =>
              split at h
              · cases h
              · next hshort =>
                  cases h
                  have hit : s1.patternIt = 1 := by
                    rcases deletePattern_spec _ _ h1 with ⟨hn, rfl⟩ | ⟨-, rfl⟩
                    · obtain ⟨-, -, h3⟩ := hinv
                      rw [hn] at h3
                      exact h3.1
                    · rfl
                  refine ⟨?_, ?_, ?_⟩
                  · show 1 ≤ s1.patternIt
                    rw [hit]
                  · show s1.patternIt % 2 = 1
                    rw [hit]
                    decide
                  · show len = (((data.drop 4).take len.toNat).length : Int)
                    rw [List.length_take]
                    omega

theorem handleVibrationPatternPacket_patInv (s s' : State) (data : List Byte)
    (hinv : PatInv s) (h : handleVibrationPatternPacket s data = some s') : PatInv s' := by
  unfold handleVibrationPatternPacket at h
  split at h
  · cases h
  · simp only at h
    split at h
    · split at h
      · cases h
      · next s2 h2 =>
          have hs2 : PatInv s2 := by
            refine replacePattern_patInv _ _ _ ?_ h2
            exact hinv
          split at h
          · cases h
          · split at h
            · cases h
            · next s5 h5 =>
                cases h
                split at h5
                · obtain ⟨a1, a2, a3, -⟩ := handleVibrationSoundRequest_patSame _ _ _ h5
                  exact patInv_of_same a1 a2 a3 hs2
                · cases h5
                  exact hs2
    · split at h
      · cases h
        exact hinv
      · split at h
        · split at h <;> cases h <;> exact hinv
        · cases h
          exact hinv

theorem handleVibrationSound_patInv (s s' : State) (data : List Byte)
    (hinv : PatInv s) (h : handleVibrationSound s data = some s') : PatInv s' := by
  obtain ⟨-, -, -, -, a5⟩ := handleVibrationSound_spec s s' data h
  rcases a5 with ⟨c1, c2, c3⟩ | ⟨-, -, c1, c2, c3⟩
  · exact patInv_of_same c1 c2 c3 hinv
  · unfold PatInv
    rw [c1, c2, c3]
    exact ⟨le_refl _, by decide, rfl, rfl⟩

theorem loopPatternAdvance_patInv (s s' : State) (hinv : PatInv s)
    (h : loopPatternAdvance s = some s') : PatInv s' := by
  unfold loopPatternAdvance at h
  split at h
  · split at h
    · split at h
      · next buf hp =>
          split at h
          · cases h
          · split at h
            · cases h
            · cases h
              obtain ⟨h1, h2, h3⟩ := hinv
              rw [hp] at h3
              refine ⟨?_, ?_, ?_⟩
              · show 1 ≤ s.patternIt + 2
                omega
              · show (s.patternIt + 2) % 2 = 1
                omega
              · show match s.currentPattern with
                  | PatternPtr.live buf => s.patternLength = (buf.length : Int)
                  | _ => s.patternIt + 2 = 1 ∧ s.patternLength = 0
                rw [hp]
                exact h3
      · cases h
    · cases h
      exact hinv
  · cases h
    exact hinv

/-- Under the pattern invariant the deferred pattern advance always returns:
its read of `currentPattern[patternIt]` is inside the live buffer. -/
theorem loopPatternAdvance_total (s : State) (hinv : PatInv s) :
    ∃ s' : State, loopPatternAdvance s = some s' := by
  obtain ⟨h1, -, h3⟩ := hinv
  unfold loopPatternAdvance
  split
  · split
    · next hlt =>
        cases hp : s.currentPattern with
        | null =>
            rw [hp] at h3
            omega
        | dangling =>
            rw [hp] at h3
            omega
        | live buf =>
            rw [hp] at h3
            have h3' : s.patternLength = (buf.length : Int) := h3
            have hnn : ¬ s.patternIt < 0 := by omega
            have hidx : s.patternIt.toNat < buf.length := by omega
            simp only [if_neg hnn, List.getElem?_eq_getElem hidx]
            exact ⟨_, rfl⟩
    · exact ⟨_, rfl⟩
  · exact ⟨_, rfl⟩

theorem loopDeferred_patInv (s s' : State) (hinv : PatInv s) (h : loopDeferred s = some s') :
    PatInv s' := by
  unfold loopDeferred at h
  split at h
  · cases h
  · next s1 h1 =>
      obtain ⟨t, ht, b1, b2, b3, -⟩ := loopExitAudio_frame s
      rw [h1] at ht
      cases ht
      exact loopPatternAdvance_patInv _ _ (patInv_of_same b1 b2 b3 hinv) h

theorem step_patInv (s s' : State) (e : Event) (hinv : PatInv s) (h : step s e = some s') :
    PatInv s' := by
  cases e with
  | packet packetType data =>
      simp only [step, handlePacket] at h
      split at h
      · obtain ⟨a1, a2, a3⟩ := handleTestPacket_patSame _ _ _ h
        exact patInv_of_same a1 a2 a3 hinv
      · split at h
        · unfold handleVibrationPacket at h
          split at h
          · cases h
          · exact (playVibrationEffects_outputOnly _ _ _ _ h).keepsPatInv hinv
        · split at h
          · exact handleVibrationPatternPacket_patInv _ _ _ hinv h
          · split at h
            · exact handleVibrationSound_patInv _ _ _ hinv h
            · split at h
              · obtain ⟨a1, a2, a3, -⟩ := handleVibrationSoundRequest_patSame _ _ _ h
                exact patInv_of_same a1 a2 a3 hinv
              · split at h
                · obtain ⟨a1, a2, a3⟩ := handleRealtime_patSame _ _ _ h
                  exact patInv_of_same a1 a2 a3 hinv
                · cases h
                  exact hinv
  | drain => exact loopDeferred_patInv _ _ hinv h
  | chunkBufferTick =>
      simp only [step] at h
      split at h
      · exact (onChunkBufferTimer_outputOnly _ _ h).keepsPatInv hinv
      · cases h
  | audioPlaybackTick =>
      simp only [step] at h
      split at h
      · obtain ⟨-, -, -, a4, a5, a6, -⟩ := onAudioPlaybackTimer_frame _ _ h
        exact patInv_of_same a4 a5 a6 hinv
      · cases h
  | rendererDone i =>
      simp only [step] at h
      split at h
      · cases h
      · cases h
        exact hinv

theorem run_patInv (es : List Event) :
    ∀ (s s' : State), PatInv s → run s es = some s' → PatInv s' := by
  induction es with
  | nil =>
      intro s s' hinv h
      simp only [run, Option.some.injEq] at h
      exact h ▸ hinv
  | cons e es ih =>
      intro s s' hinv h
      simp only [run] at h
      split at h
      · cases h
      · next s1 h1 => exact ih s1 s' (step_patInv _ _ _ hinv h1) h

theorem setup_patInv (d : Drv) : PatInv (setup d) := by
  refine ⟨?_, ?_, ?_⟩
  · show (1 : Int) ≤ 1
    exact le_refl _
  · show (1 : Int) % 2 = 1
    decide
  · exact ⟨rfl, rfl⟩

theorem Reachable.patInv {s : State} (h : Reachable s) : PatInv s := by
  obtain ⟨d, es, hrun⟩ := h
  exact run_patInv es _ _ (setup_patInv d) hrun

/-! ## Leaving audio mode -/

/-- What the deferred pattern advance leaves alone. -/
theorem loopPatternAdvance_frame (s s' : State) (h : loopPatternAdvance s = some s') :
    s'.audioMode = s.audioMode ∧ s'.chunkQueue = s.chunkQueue ∧
    s'.chunkBufferTimer = s.chunkBufferTimer ∧ s'.audioPlaybackTimer = s.audioPlaybackTimer ∧
    s'.exitAudiomodeFlag = s.exitAudiomodeFlag ∧ s'.patternMode = s.patternMode ∧
    s'.realTimeMode = s.realTimeMode ∧ s'.drv.mode = s.drv.mode ∧ s'.drv.regs = s.drv.regs := by
  unfold loopPatternAdvance at h
  split at h
  · split at h
    · split at h
      · split at h
        · cases h
        · split at h
          · cases h
          · cases h
            exact ⟨rfl, rfl, rfl, rfl, rfl, rfl, rfl, rfl, rfl⟩
      · cases h
    · cases h
      exact ⟨rfl, rfl, rfl, rfl, rfl, rfl, rfl, rfl, rfl⟩
  · cases h
    exact ⟨rfl, rfl, rfl, rfl, rfl, rfl, rfl, rfl, rfl⟩

/-- C8: in audio mode with exactly one chunk queued whose `Playing` flag is
false, one playback tick returns, empties the queue and sets
`exitAudiomodeFlag`, and `audioMode` is still true. The deferred exit at the
head of `loop()` then returns with `audioMode` false, the queue empty, both
alarms disabled and `exitAudiomodeFlag` cleared; the same holds after the
whole deferred drain of that loop iteration, which returns whenever the state
is reachable. -/
theorem C8_last_chunk_exit (s : State) (c : WavChunk)
    (hau : s.audioMode = true) (hq : s.chunkQueue = [c]) (hp : c.playing = false) :
    ∃ s1 s2 : State,
      onAudioPlaybackTimer s = some s1 ∧
      s1.chunkQueue = [] ∧ s1.exitAudiomodeFlag = true ∧ s1.audioMode = true ∧
      loopExitAudio s1 = some s2 ∧
      s2.audioMode = false ∧ s2.chunkQueue = [] ∧
      s2.chunkBufferTimer.enabled = false ∧ s2.audioPlaybackTimer.enabled = false ∧
      s2.exitAudiomodeFlag = false ∧
      (∀ s3 : State, loopDeferred s1 = some s3 →
        s3.audioMode = false ∧ s3.chunkQueue = [] ∧
        s3.chunkBufferTimer.enabled = false ∧ s3.audioPlaybackTimer.enabled = false ∧
        s3.exitAudiomodeFlag = false) ∧
      (Reachable s → ∃ s3 : State, loopDeferred s1 = some s3) := by
  obtain ⟨s1, hs1, t1, t2, t3⟩ : ∃ s1 : State, onAudioPlaybackTimer s = some s1 ∧
      s1.chunkQueue = [] ∧ s1.exitAudiomodeFlag = true ∧ s1.audioMode = true := by
    unfold onAudioPlaybackTimer
    simp only [hau, hq, hp, if_true, Bool.not_false, List.isEmpty_nil]
    exact ⟨_, rfl, rfl, rfl, hau⟩
  obtain ⟨s5, hs5, q1, q2, q3, q4, -, -, -, q8, q9, q10, -⟩ :=
    handleVibrationSoundRequest_stop s1 (int32Bytes 2) readInt32_two
  have hexit : loopExitAudio s1 = some { s5 with exitAudiomodeFlag := false } := by
    unfold loopExitAudio
    simp only [t2, if_true, hs5]
  have e3 : ({ s5 with exitAudiomodeFlag := false } : State).chunkBufferTimer.enabled = false := by
    show s5.chunkBufferTimer.enabled = false
    rw [q3]
  have e4 : ({ s5 with exitAudiomodeFlag := false } : State).audioPlaybackTimer.enabled
      = false := by
    show s5.audioPlaybackTimer.enabled = false
    rw [q4]
  refine ⟨s1, _, hs1, t1, t2, t3, hexit, q1, q2, e3, e4, rfl, ?_, ?_⟩
  · intro s3 h3
    simp only [loopDeferred, hexit] at h3
    obtain ⟨f1, f2, f3, f4, f5, -⟩ := loopPatternAdvance_frame _ _ h3
    refine ⟨f1.trans q1, f2.trans q2, ?_, ?_, f5⟩
    · rw [f3]
      exact e3
    · rw [f4]
      exact e4
  · intro hreach
    obtain ⟨-, -, -, a4, a5, a6, -⟩ := onAudioPlaybackTimer_frame _ _ hs1
    have hpat : PatInv ({ s5 with exitAudiomodeFlag := false } : State) :=
      patInv_of_same (q8.trans a4) (q9.trans a5) (q10.trans a6) hreach.patInv
    simp only [loopDeferred, hexit]
    exact loopPatternAdvance_total _ hpat

/-- Witness for C8: one Sound packet, then the renderer finishes the chunk. -/
theorem C8_last_chunk_exit_witness :
    ∃ s1 s2 : State,
      onAudioPlaybackTimer lastChunkState = some s1 ∧
      s1.chunkQueue = [] ∧ s1.exitAudiomodeFlag = true ∧ s1.audioMode = true ∧
      loopExitAudio s1 = some s2 ∧
      s2.audioMode = false ∧ s2.chunkQueue = [] ∧
      s2.chunkBufferTimer.enabled = false ∧ s2.audioPlaybackTimer.enabled = false ∧
      s2.exitAudiomodeFlag = false ∧
      (∀ s3 : State, loopDeferred s1 = some s3 →
        s3.audioMode = false ∧ s3.chunkQueue = [] ∧
        s3.chunkBufferTimer.enabled = false ∧ s3.audioPlaybackTimer.enabled = false ∧
        s3.exitAudiomodeFlag = false) ∧
      (Reachable lastChunkState → ∃ s3 : State, loopDeferred s1 = some s3) :=
  C8_last_chunk_exit lastChunkState
    { soundId := 1, chunkId := 0, wavData := List.replicate 46 0, playing := false }
    rfl rfl rfl

/-- The audio exit path changes nothing on a state that is already out of
audio mode with its peripherals at rest. -/
theorem stop_sameState_of_rest (s s1 : State) (data : List Byte)
    (h : readInt32 data 0 = some 2) (hs1 : handleVibrationSoundRequest s data = some s1)
    (hau : s.audioMode = false) (hq : s.chunkQueue = [])
    (ht1 : s.chunkBufferTimer.enabled = false) (ht2 : s.audioPlaybackTimer.enabled = false)
    (hm : s.drv.mode = DRV2605_MODE_INTTRIG)
    (hr1 : s.drv.regs REG_AC_COUPLE = s.regACCouple)
    (hr2 : s.drv.regs REG_N_PWM_ANALOG = s.regPWMAnalog) : sameState s1 s := by
  obtain ⟨s', hs', q1, q2, q3, q4, q5, q6, q7, q8, q9, q10, q11, q12, q13, q14, q15, q16,
    q17, q18, -, -⟩ := handleVibrationSoundRequest_stop s data h
  rw [hs1] at hs'
  cases hs'
  refine ⟨q2.trans hq.symm, q1.trans hau.symm, ?_, ?_, q12, q13, q14, q6, q8, q9, q10, q11, q7,
    q15, q16, ?_, ?_, ?_, ?_, ?_, q17, q18⟩
  · rw [q3, ← ht1]
  · rw [q4, ← ht2]
  · rw [q5]
    exact hm.symm
  · rw [q5]
  · rw [q5]
  · rw [q5]
  · rw [q5]
    funext r
    show (if r = REG_N_PWM_ANALOG then s.regPWMAnalog
      else if r = REG_AC_COUPLE then s.regACCouple else s.drv.regs r) = s.drv.regs r
    split
    · next hr => rw [hr, hr2]
    · split
      · next hr => rw [hr, hr1]
      · rfl

/-- C9: the audio exit path (`handleVibrationSoundRequest` with request kind
2) always returns, and handling it twice yields the same state as handling it
once: all globals, both alarms, the driver mode, the coupling registers and
the rest of the driver state agree. It changes no state where the controller
is already at rest (not in audio mode, queue empty, both alarms off, driver
in triggered mode, coupling registers at their snapshot), and every reachable
state with no mode flag set is such a state. -/
theorem C9_exit_idempotent (s : State) (data : List Byte) (h : readInt32 data 0 = some 2) :
    ∃ s1 s2 : State,
      handleVibrationSoundRequest s data = some s1 ∧
      handleVibrationSoundRequest s1 data = some s2 ∧
      sameState s2 s1 ∧
      (s.audioMode = false → s.chunkQueue = [] →
        s.chunkBufferTimer.enabled = false → s.audioPlaybackTimer.enabled = false →
        s.drv.mode = DRV2605_MODE_INTTRIG →
        s.drv.regs REG_AC_COUPLE = s.regACCouple →
        s.drv.regs REG_N_PWM_ANALOG = s.regPWMAnalog → sameState s1 s) ∧
      (Reachable s → s.audioMode = false → s.patternMode = false → s.realTimeMode = false →
        sameState s1 s) := by
  obtain ⟨s1, hs1, q1, q2, q3, q4, q5, -, -, -, -, -, -, -, q13, q14, -⟩ :=
    handleVibrationSoundRequest_stop s data h
  obtain ⟨s2, hs2, -⟩ := handleVibrationSoundRequest_stop s1 data h
  have hne : REG_AC_COUPLE ≠ REG_N_PWM_ANALOG := by decide
  have rest1 : sameState s2 s1 := by
    refine stop_sameState_of_rest s1 s2 data h hs2 q1 q2 ?_ ?_ ?_ ?_ ?_
    · rw [q3]
    · rw [q4]
    · rw [q5]
    · rw [q5, q13]
      show (if REG_AC_COUPLE = REG_N_PWM_ANALOG then s.regPWMAnalog
        else if REG_AC_COUPLE = REG_AC_COUPLE then s.regACCouple
        else s.drv.regs REG_AC_COUPLE) = s.regACCouple
      rw [if_neg hne, if_pos rfl]
    · rw [q5, q14]
      show (if REG_N_PWM_ANALOG = REG_N_PWM_ANALOG then s.regPWMAnalog
        else if REG_N_PWM_ANALOG = REG_AC_COUPLE then s.regACCouple
        else s.drv.regs REG_N_PWM_ANALOG) = s.regPWMAnalog
      rw [if_pos rfl]
  refine ⟨s1, s2, hs1, hs2, rest1, ?_, ?_⟩
  · intro hau hq ht1 ht2 hm hr1 hr2
    exact stop_sameState_of_rest s s1 data h hs1 hau hq ht1 ht2 hm hr1 hr2
  · intro hreach hau hpm hrt
    obtain ⟨-, i2, i3, i4⟩ := hreach.inv
    obtain ⟨j1, j2, j3, j4⟩ := i2 hau
    exact stop_sameState_of_rest s s1 data h hs1 hau j2 j1 (i3 hau hpm) (i4 hau hpm hrt) j3 j4

/-- Witness for C9: the exit path handled twice in audio mode with two
chunks queued, and handled on the state after `setup()`, which is at rest. -/
theorem C9_exit_idempotent_witness :
    (∃ s1 s2 : State,
      handleVibrationSoundRequest audioState2 [2, 0, 0, 0] = some s1 ∧
      handleVibrationSoundRequest s1 [2, 0, 0, 0] = some s2 ∧
      s1.audioMode = false ∧ audioState2.audioMode = true ∧
      sameState s2 s1) ∧
    (∃ s1 : State,
      handleVibrationSoundRequest bootState [2, 0, 0, 0] = some s1 ∧
      sameState s1 bootState) := by
  refine ⟨?_, ?_⟩
  · obtain ⟨s1, s2, h1, h2, h3, -⟩ := C9_exit_idempotent audioState2 [2, 0, 0, 0] (by decide)
    refine ⟨s1, s2, h1, h2, ?_, rfl, h3⟩
    have h1' : handleVibrationSoundRequest audioState2 [2, 0, 0, 0] = some s1 := h1
    obtain ⟨t, ht, q1, -⟩ :=
      handleVibrationSoundRequest_stop audioState2 [2, 0, 0, 0] (by decide)
    rw [h1'] at ht
    cases ht
    exact q1
  · obtain ⟨s1, -, h1, -, -, -, hr⟩ := C9_exit_idempotent bootState [2, 0, 0, 0] (by decide)
    exact ⟨s1, h1, hr ⟨bootDrv, [], rfl⟩ rfl rfl rfl⟩

/-! ## Flow control -/

/-- C10, as stated, fails: the far end answers received requests only (five
Sound packets for eight received requests, after the unasked first chunk),
yet the queue holds 6 chunks: two refill ticks in a row each request the
whole deficit. -/
theorem C10_queue_exceeds_target_counterexample :
    ∃ f : Flow,
      flowRun false { ctl := bootState, credit := 0 } twoRefillsThenAnswers = some f ∧
      f.ctl.chunkQueue.length = 6 ∧
      ¬ ((f.ctl.chunkQueue.length : Int) ≤ CHUNK_QUEUE_TARGET_SIZE) ∧
      f.credit = 3 :=
  ⟨_, rfl, rfl, by decide, rfl⟩

theorem onAudioPlaybackTimer_queue (s s' : State) (h : onAudioPlaybackTimer s = some s') :
    s'.chunkQueue.length ≤ s.chunkQueue.length := by
  unfold onAudioPlaybackTimer at h
  simp only at h
  split at h
  · split at h
    · cases h
      exact le_refl _
    · next c rest hq =>
        rw [hq]
        split at h
        · split at h
          · cases h
            exact Nat.le_succ _
          · split at h
            · cases h
            · next s3 h3 =>
                unfold dacPlayFront at h3
                split at h3
                · cases h3
                · next c2 rest2 hq2 =>
                    cases h3
                    have hq2' : rest = c2 :: rest2 := hq2
                    have hlen : (({ c2 with playing := true } : WavChunk) :: rest2).length
                        ≤ (c :: rest).length := by
                      rw [hq2']
                      simp
                    split at h <;> cases h <;> exact hlen
        · split at h <;> cases h <;> rw [← hq]
  · split at h <;> cases h <;> exact le_refl _

/-- The deferred actions at the head of `loop()` either leave audio mode
with an empty queue or leave both the audio flag and the queue alone. -/
theorem loopDeferred_queue (s s' : State) (h : loopDeferred s = some s') :
    (s'.audioMode = false ∧ s'.chunkQueue = []) ∨
    (s'.audioMode = s.audioMode ∧ s'.chunkQueue = s.chunkQueue) := by
  unfold loopDeferred at h
  split at h
  · cases h
  · next s1 h1 =>
      obtain ⟨f1, f2, -⟩ := loopPatternAdvance_frame _ _ h
      unfold loopExitAudio at h1
      split at h1
      · obtain ⟨s5, hs5, q1, q2, -⟩ :=
          handleVibrationSoundRequest_stop s (int32Bytes 2) readInt32_two
        rw [hs5] at h1
        cases h1
        exact Or.inl ⟨f1.trans q1, f2.trans q2⟩
      · cases h1
        exact Or.inr ⟨f1, f2⟩

theorem flowStep_inv (f f' : Flow) (e : FlowEvent) (hinv : FlowInv f)
    (h : flowStep true f e = some f') : FlowInv f' := by
  obtain ⟨h1, h2⟩ := hinv
  have h5 : CHUNK_QUEUE_TARGET_SIZE = 5 := rfl
  rw [h5] at h2
  unfold FlowInv
  rw [h5]
  cases e with
  | soundAsked data =>
      simp only [flowStep] at h
      split at h
      · cases h
      · next hc =>
          split at h
          · cases h
          · next s hs =>
              cases h
              rw [handlePacket_sound] at hs
              obtain ⟨a1, -, -, a4, -⟩ := handleVibrationSound_spec _ _ _ hs
              refine ⟨fun hp => ?_, ?_⟩
              · have hp' : s.audioMode = false := hp
                rw [a1] at hp'
                cases hp'
              · show (s.chunkQueue.length : Int) + ((f.credit - 1 : Nat) : Int) ≤ 5
                rw [a4]
                push_cast
                omega
  | soundFirst data =>
      simp only [flowStep] at h
      split at h
      · cases h
      · next hau =>
          split at h
          · cases h
          · next hc =>
              split at h
              · cases h
              · next s hs =>
                  cases h
                  rw [handlePacket_sound] at hs
                  obtain ⟨a1, -, -, a4, -⟩ := handleVibrationSound_spec _ _ _ hs
                  have hq : f.ctl.chunkQueue = [] := h1 (by simpa using hau)
                  have hc0 : f.credit = 0 := by
                    by_contra hne
                    exact hc ⟨trivial, hne⟩
                  refine ⟨fun hp => ?_, ?_⟩
                  · have hp' : s.audioMode = false := hp
                    rw [a1] at hp'
                    cases hp'
                  · show (s.chunkQueue.length : Int) + (f.credit : Int) ≤ 5
                    rw [a4, hq, hc0]
                    decide
  | chunkBufferTick =>
      simp only [flowStep] at h
      split at h
      · cases h
      · next hc =>
          have hc0 : f.credit = 0 := by
            by_contra hne
            exact hc ⟨trivial, hne⟩
          split at h
          · cases h
          · next s hs =>
              cases h
              simp only [step] at hs
              split at hs
              · obtain ⟨s', hs', b1, b2, b3, -⟩ := onChunkBufferTimer_spec f.ctl (by omega)
                rw [hs] at hs'
                cases hs'
                refine ⟨fun hp => ?_, ?_⟩
                · have hp' : s.audioMode = false := hp
                  rw [b3] at hp'
                  have hq := h1 hp'
                  show s.chunkQueue = []
                  rw [b2, hq]
                · show (s.chunkQueue.length : Int)
                    + ((f.credit + (s.btWrites.length - f.ctl.btWrites.length) : Nat) : Int) ≤ 5
                  rw [b1, b2, hc0, List.length_append, List.length_replicate]
                  split <;> push_cast <;> omega
              · cases hs
  | audioPlaybackTick =>
      simp only [flowStep] at h
      split at h
      · cases h
      · next s hs =>
          cases h
          simp only [step] at hs
          split at hs
          · have hlen := onAudioPlaybackTimer_queue _ _ hs
            obtain ⟨a1, -, -, -, -, -, -, -, -, -, -, -, -, a12⟩ :=
              onAudioPlaybackTimer_frame _ _ hs
            refine ⟨fun hp => ?_, ?_⟩
            · have hp' : s.audioMode = false := hp
              rw [a1] at hp'
              show s.chunkQueue = []
              rw [a12 hp']
              exact h1 hp'
            · show (s.chunkQueue.length : Int) + (f.credit : Int) ≤ 5
              omega
          · cases hs
  | rendererDone i =>
      simp only [flowStep] at h
      split at h
      · cases h
      · next s hs =>
          cases h
          simp only [step] at hs
          split at hs
          · cases hs
          · next c hc =>
              cases hs
              refine ⟨fun hp => ?_, ?_⟩
              · have hq := h1 hp
                rw [hq] at hc
                simp at hc
              · show (((f.ctl.chunkQueue.set i { c with playing := false }).length : Nat) : Int)
                  + (f.credit : Int) ≤ 5
                rw [List.length_set]
                exact h2
  | drain =>
      simp only [flowStep] at h
      split at h
      · cases h
      · next s hs =>
          cases h
          simp only [step] at hs
          rcases loopDeferred_queue _ _ hs with ⟨c1, c2⟩ | ⟨c1, c2⟩
          · refine ⟨fun _ => c2, ?_⟩
            show (s.chunkQueue.length : Int) + (f.credit : Int) ≤ 5
            rw [c2]
            simp only [List.length_nil]
            omega
          · refine ⟨fun hp => ?_, ?_⟩
            · have hp' : s.audioMode = false := hp
              rw [c1] at hp'
              show s.chunkQueue = []
              rw [c2]
              exact h1 hp'
            · show (s.chunkQueue.length : Int) + (f.credit : Int) ≤ 5
              rw [c2]
              exact h2

theorem flowRun_inv (es : List FlowEvent) :
    ∀ (f f' : Flow), FlowInv f → flowRun true f es = some f' → FlowInv f' := by
  induction es with
  | nil =>
      intro f f' hinv h
      simp only [flowRun, Option.some.injEq] at h
      exact h ▸ hinv
  | cons e es ih =>
      intro f f' hinv h
      simp only [flowRun] at h
      split at h
      · cases h
      · next f1 h1 => exact ih f1 f' (flowStep_inv _ _ _ hinv h1) h

/-- C10, amended: in every streaming execution from the state after
`setup()` in which the far end sends at most one Sound packet per
SoundRequest packet it has received, starts a stream unasked only outside
audio mode and with no request unanswered, and in which the refill alarm
fires only when no request is unanswered (every batch of requests is
answered before the next refill tick), the queued chunks plus the unanswered
requests never exceed `CHUNK_QUEUE_TARGET_SIZE` = 5, for any interleaving of
Sound arrivals, refill ticks, playback ticks, renderer completions and
deferred drains; in particular the queue never holds more than 5 chunks. -/
theorem C10_paced_queue_bound (d : Drv) (es : List FlowEvent) (f : Flow)
    (h : flowRun true { ctl := setup d, credit := 0 } es = some f) :
    (f.ctl.chunkQueue.length : Int) + (f.credit : Int) ≤ CHUNK_QUEUE_TARGET_SIZE ∧
    f.ctl.chunkQueue.length ≤ 5 := by
  have h0 : FlowInv { ctl := setup d, credit := 0 } := by
    refine ⟨fun _ => rfl, ?_⟩
    show (((0 : Nat) : Int) + ((0 : Nat) : Int)) ≤ CHUNK_QUEUE_TARGET_SIZE
    decide
  obtain ⟨-, h2⟩ := flowRun_inv es _ _ h0 h
  refine ⟨h2, ?_⟩
  have h5 : CHUNK_QUEUE_TARGET_SIZE = 5 := rfl
  rw [h5] at h2
  omega

/-- Witness for C10 (amended): the paced execution `pacedStream`, which
fills the queue to 5 chunks and then plays the first one out. -/
theorem C10_paced_queue_bound_witness :
    ∃ f : Flow,
      flowRun true { ctl := setup bootDrv, credit := 0 } pacedStream = some f ∧
      f.ctl.chunkQueue.length = 4 ∧ f.credit = 0 ∧
      (f.ctl.chunkQueue.length : Int) + (f.credit : Int) ≤ CHUNK_QUEUE_TARGET_SIZE ∧
      f.ctl.chunkQueue.length ≤ 5 :=
  ⟨_, rfl, rfl, rfl, C10_paced_queue_bound bootDrv pacedStream _ rfl⟩

/-! ## Transport and register snapshot: what the handlers leave alone -/

theorem transportKept_refl (s : State) : TransportKept s s := ⟨rfl, rfl, rfl, rfl⟩

theorem transportKept_trans {a b c : State} (h1 : TransportKept a b)
    (h2 : TransportKept b c) : TransportKept a c :=
  ⟨h2.1.trans h1.1, h2.2.1.trans h1.2.1, h2.2.2.1.trans h1.2.2.1, h2.2.2.2.trans h1.2.2.2⟩

theorem forRange_transportKept (body : Int → State → Option State)
    (hbody : ∀ i t t', body i t = some t' → TransportKept t t') :
    ∀ (n : Nat) (lo : Int) (s s' : State),
      forRange body lo n s = some s' → TransportKept s s' := by
  intro n
  induction n with
  | zero =>
      intro lo s s' h
      simp only [forRange, Option.some.injEq] at h
      subst h
      exact transportKept_refl s
  | succ n ih =>
      intro lo s s' h
      simp only [forRange] at h
      split at h
      · cases h
      · next s1 h1 => exact transportKept_trans (hbody _ _ _ h1) (ih _ _ _ h)

theorem playVibrationEffects_transportKept (s s' : State) (count : Int) (values : List Byte)
    (h : playVibrationEffects s count values = some s') : TransportKept s s' := by
  unfold playVibrationEffects at h
  split at h
  · cases h
    exact transportKept_refl s
  · have hstop : TransportKept s (drvStop s) := ⟨rfl, rfl, rfl, rfl⟩
    simp only at h
    split at h
    · cases h
    · next s2 h2 =>
        have h12 : TransportKept (drvStop s) s2 := by
          refine forRange_transportKept _ ?_ _ _ _ _ h2
          intro i t t' hb
          split at hb
          · cases hb
          · cases hb
            exact ⟨rfl, rfl, rfl, rfl⟩
        split at h
        · cases h
        · next s3 h3 =>
            cases h
            have h23 : TransportKept s2 s3 := by
              split at h3
              · refine forRange_transportKept _ ?_ _ _ _ _ h3
                intro i t t' hb
                cases hb
                exact ⟨rfl, rfl, rfl, rfl⟩
              · cases h3
                exact transportKept_refl _
            exact transportKept_trans (transportKept_trans hstop (transportKept_trans h12 h23))
              ⟨rfl, rfl, rfl, rfl⟩

theorem handleVibrationPacket_transportKept (s s' : State) (data : List Byte)
    (h : handleVibrationPacket s data = some s') : TransportKept s s' := by
  unfold handleVibrationPacket at h
  split at h
  · cases h
  · refine transportKept_trans ?_ (playVibrationEffects_transportKept _ _ _ _ h)
    exact ⟨rfl, rfl, rfl, rfl⟩

theorem handleVibrationSoundRequest_transportKept (s s' : State) (data : List Byte)
    (h : handleVibrationSoundRequest s data = some s') : TransportKept s s' := by
  unfold handleVibrationSoundRequest at h
  split at h
  · cases h
  · split at h <;> cases h <;> exact ⟨rfl, rfl, rfl, rfl⟩

theorem handleRealtime_transportKept (s s' : State) (data : List Byte)
    (h : handleRealtime s data = some s') : TransportKept s s' := by
  unfold handleRealtime at h
  split at h
  · cases h
  · cases h
    simp only [drvSetRealtimeValue]
    split <;> exact ⟨rfl, rfl, rfl, rfl⟩

theorem handleTestPacket_transportKept (s s' : State) (data : List Byte)
    (h : handleTestPacket s data = some s') : TransportKept s s' := by
  unfold handleTestPacket at h
  split at h
  · cases h
  · split at h <;> cases h
    exact ⟨rfl, rfl, rfl, rfl⟩

theorem deletePattern_transportKept (s s' : State) (h : deletePattern s = some s') :
    TransportKept s s' := by
  rcases deletePattern_spec s s' h with ⟨-, rfl⟩ | ⟨-, rfl⟩
  · exact ⟨rfl, rfl, rfl, rfl⟩
  · exact ⟨rfl, rfl, rfl, rfl⟩

theorem replacePattern_transportKept (s s' : State) (data : List Byte)
    (h : replacePattern s data = some s') : TransportKept s s' := by
  unfold replacePattern at h
  split at h
  · cases h
  · next s1 h1 =>
      have h01 := deletePattern_transportKept _ _ h1
      split at h
      · cases h
      · simp only at h
        split at h
        · cases h
        · split at h
          · cases h
          · cases h
            exact transportKept_trans h01 ⟨rfl, rfl, rfl, rfl⟩

theorem handleVibrationPatternPacket_transportKept (s s' : State) (data : List Byte)
    (h : handleVibrationPatternPacket s data = some s') : TransportKept s s' := by
  unfold handleVibrationPatternPacket at h
  split at h
  · cases h
  · simp only at h
    split at h
    · split at h
      · cases h
      · next s2 h2 =>
          have h02 : TransportKept s s2 := by
            refine transportKept_trans ?_ (replacePattern_transportKept _ _ _ h2)
            exact ⟨rfl, rfl, rfl, rfl⟩
          split at h
          · cases h
          · split at h
            · cases h
            · next s5 h5 =>
                cases h
                split at h5
                · have h25 : TransportKept s2 s5 := by
                    refine transportKept_trans ?_
                      (handleVibrationSoundRequest_transportKept _ _ _ h5)
                    exact ⟨rfl, rfl, rfl, rfl⟩
                  exact transportKept_trans (transportKept_trans h02 h25) ⟨rfl, rfl, rfl, rfl⟩
                · cases h5
                  exact transportKept_trans h02 ⟨rfl, rfl, rfl, rfl⟩
    · split at h
      · cases h
        exact ⟨rfl, rfl, rfl, rfl⟩
      · split at h
        · split at h <;> cases h <;> exact ⟨rfl, rfl, rfl, rfl⟩
        · cases h
          exact ⟨rfl, rfl, rfl, rfl⟩

theorem soundLeaveOtherModes_transportKept (s s' : State)
    (h : soundLeaveOtherModes s = some s') : TransportKept s s' := by
  have hrt : (if s.realTimeMode then { s with realTimeMode := false } else s)
      = { s with realTimeMode := false } := by
    split
    · rfl
    · next hf =>
        have : s.realTimeMode = false := by simpa using hf
        rw [← this]
  unfold soundLeaveOtherModes at h
  simp only [hrt] at h
  split at h
  · split at h
    · cases h
    · next t ht =>
        cases h
        refine transportKept_trans ?_
          (transportKept_trans (deletePattern_transportKept _ _ ht) ⟨rfl, rfl, rfl, rfl⟩)
        exact ⟨rfl, rfl, rfl, rfl⟩
  · cases h
    exact ⟨rfl, rfl, rfl, rfl⟩

theorem soundEnterAudio_transportKept (s s' : State) (h : soundEnterAudio s = some s') :
    TransportKept s s' := by
  unfold soundEnterAudio at h
  split at h
  · simp only at h
    split at h
    · cases h
    · next s10 h10 =>
        cases h
        unfold dacPlayFront at h10
        split at h10
        · cases h10
        · cases h10
          exact ⟨rfl, rfl, rfl, rfl⟩
  · cases h
    exact ⟨rfl, rfl, rfl, rfl⟩

theorem handleVibrationSound_transportKept (s s' : State) (data : List Byte)
    (h : handleVibrationSound s data = some s') : TransportKept s s' := by
  unfold handleVibrationSound at h
  split at h
  · simp only at h
    split at h
    · cases h
    · split at h
      · cases h
      · split at h
        · cases h
        · next s4 h4 =>
            refine transportKept_trans ?_
              (transportKept_trans (soundLeaveOtherModes_transportKept _ _ h4)
                (soundEnterAudio_transportKept _ _ h))
            exact ⟨rfl, rfl, rfl, rfl⟩
  · cases h

theorem handlePacket_transportKept (s s' : State) (packetType : Int) (data : List Byte)
    (h : handlePacket s packetType data = some s') : TransportKept s s' := by
  unfold handlePacket at h
  split at h
  · exact handleTestPacket_transportKept _ _ _ h
  · split at h
    · exact handleVibrationPacket_transportKept _ _ _ h
    · split at h
      · exact handleVibrationPatternPacket_transportKept _ _ _ h
      · split at h
        · exact handleVibrationSound_transportKept _ _ _ h
        · split at h
          · exact handleVibrationSoundRequest_transportKept _ _ _ h
          · split at h
            · exact handleRealtime_transportKept _ _ _ h
            · cases h
              exact transportKept_refl s

theorem loopDeferred_transportKept (s s' : State) (h : loopDeferred s = some s') :
    TransportKept s s' := by
  unfold loopDeferred at h
  split at h
  · cases h
  · next s1 h1 =>
      have h01 : TransportKept s s1 := by
        unfold loopExitAudio at h1
        split at h1
        · split at h1
          · cases h1
          · next t ht =>
              cases h1
              exact transportKept_trans (handleVibrationSoundRequest_transportKept _ _ _ ht)
                ⟨rfl, rfl, rfl, rfl⟩
        · cases h1
          exact transportKept_refl s
      refine transportKept_trans h01 ?_
      unfold loopPatternAdvance at h
      split at h
      · split at h
        · split at h
          · split at h
            · cases h
            · split at h
              · cases h
              · cases h
                exact ⟨rfl, rfl, rfl, rfl⟩
          · cases h
        · cases h
          exact transportKept_refl _
      · cases h
        exact transportKept_refl _

/-- Every event other than the refill tick leaves the transport and the
register snapshot alone; the refill tick leaves the inbound bytes and the
snapshot alone. -/
theorem step_transportKept (s s' : State) (e : Event) (h : step s e = some s') :
    s'.btIn = s.btIn ∧ s'.regACCouple = s.regACCouple ∧ s'.regPWMAnalog = s.regPWMAnalog ∧
    (e ≠ Event.chunkBufferTick → s'.btWrites = s.btWrites) := by
  cases e with
  | packet packetType data =>
      obtain ⟨a, b, c, d⟩ := handlePacket_transportKept _ _ _ _ h
      exact ⟨a, c, d, fun _ => b⟩
  | drain =>
      obtain ⟨a, b, c, d⟩ := loopDeferred_transportKept _ _ h
      exact ⟨a, c, d, fun _ => b⟩
  | chunkBufferTick =>
      simp only [step] at h
      split at h
      · obtain ⟨_, _, _, _, _, _, _, _, rfl⟩ := onChunkBufferTimer_outputOnly _ _ h
        exact ⟨rfl, rfl, rfl, fun hne => absurd rfl hne⟩
      · cases h
  | audioPlaybackTick =>
      simp only [step] at h
      split at h
      · obtain ⟨-, -, -, -, -, -, -, -, -, a10, a11, -, a13, -⟩ :=
          onAudioPlaybackTimer_frame _ _ h
        refine ⟨?_, a10, a11, fun _ => a13⟩
        unfold onAudioPlaybackTimer at h
        simp only at h
        split at h
        · split at h
          · cases h
            rfl
          · split at h
            · split at h
              · cases h
                rfl
              · split at h
                · cases h
                · next s3 h3 =>
                    unfold dacPlayFront at h3
                    split at h3
                    · cases h3
                    · cases h3
                      split at h <;> cases h <;> rfl
            · split at h <;> cases h <;> rfl
        · split at h <;> cases h <;> rfl
      · cases h
  | rendererDone i =>
      simp only [step] at h
      split at h
      · cases h
      · cases h
        exact ⟨rfl, rfl, rfl, fun _ => rfl⟩

theorem run_snapshot (es : List Event) :
    ∀ (s s' : State), run s es = some s' →
      s'.regACCouple = s.regACCouple ∧ s'.regPWMAnalog = s.regPWMAnalog := by
  induction es with
  | nil =>
      intro s s' h
      simp only [run, Option.some.injEq] at h
      subst h
      exact ⟨rfl, rfl⟩
  | cons e es ih =>
      intro s s' h
      simp only [run] at h
      split at h
      · cases h
      · next s1 h1 =>
          obtain ⟨-, a, b, -⟩ := step_transportKept _ _ _ h1
          obtain ⟨c, d⟩ := ih s1 s' h
          exact ⟨c.trans a, d.trans b⟩

/-! ## Packet framer -/

theorem readInt32_isSome (data : List Byte) (off : Nat) (h : off + 4 ≤ data.length) :
    ∃ v, readInt32 data off = some v := by
  have h0 : off < data.length := by omega
  have h1 : off + 1 < data.length := by omega
  have h2 : off + 2 < data.length := by omega
  have h3 : off + 3 < data.length := by omega
  unfold readInt32
  rw [List.getElem?_eq_getElem h0, List.getElem?_eq_getElem h1, List.getElem?_eq_getElem h2,
    List.getElem?_eq_getElem h3]
  exact ⟨_, rfl⟩

/-- C11, as stated, fails: with 8 bytes available and type 3 and length -1,
both non-zero, no packet is dispatched: the payload allocation
`new char[-1]` has no defined result. With a length field of 100 and only 5
payload bytes arrived, the 8 header bytes and the 5 payload bytes are
consumed, not 8 + 100, and `handlePacket` runs on the 5 bytes. -/
theorem C11_framer_counterexample :
    (8 ≤ negativeLengthInput.btIn.length ∧
      readInt32 negativeLengthInput.btIn 0 = some 3 ∧
      readInt32 negativeLengthInput.btIn 4 = some (-1) ∧
      readPacketFromBT negativeLengthInput = none) ∧
    (∃ s' : State,
      readInt32 shortPayloadInput.btIn 0 = some 3 ∧
      readInt32 shortPayloadInput.btIn 4 = some 100 ∧
      shortPayloadInput.btIn.length = 8 + 5 ∧
      readPacketFromBT shortPayloadInput = some s' ∧
      s'.btIn = [] ∧ s'.drv.waveform 0 = 47 ∧ s'.drv.goBit = true) :=
  ⟨⟨by decide, by decide, by decide, rfl⟩, ⟨_, by decide, by decide, rfl, rfl, rfl, rfl, rfl⟩⟩

/-- C11, amended: with fewer than 8 bytes available `readPacketFromBT`
consumes nothing and changes nothing. With at least 8 bytes the type and the
length are decoded; with a zero type or a zero length exactly the 8 header
bytes are consumed and nothing else changes; with a non-zero type, a positive
length and the payload bytes available, `handlePacket` is called once, with
that type and exactly those `length` payload bytes, on a state that differs
from the prior state only in the transport having lost 8 + length bytes (and
in the debug and heap counters); the result is the result of that call with
the payload buffer released, and exactly 8 + length bytes are consumed. -/
theorem C11_framer (s : State) :
    (s.btIn.length < 8 → readPacketFromBT s = some s) ∧
    (8 ≤ s.btIn.length →
      ∃ packetType dataLength : Int,
        readInt32 s.btIn 0 = some packetType ∧ readInt32 s.btIn 4 = some dataLength ∧
        ((packetType = 0 ∨ dataLength = 0) →
          readPacketFromBT s = some { s with btIn := s.btIn.drop 8 }) ∧
        (packetType ≠ 0 → 0 < dataLength → 8 + dataLength.toNat ≤ s.btIn.length →
          ∃ pre : State,
            sameState pre { s with btIn := s.btIn.drop (8 + dataLength.toNat) } ∧
            pre.drvCalls = s.drvCalls ∧ pre.dacCalls = s.dacCalls ∧
            readPacketFromBT s =
              Option.map (fun s6 => { s6 with frees := s6.frees + 1 })
                (handlePacket pre packetType ((s.btIn.drop 8).take dataLength.toNat)) ∧
            ((s.btIn.drop 8).take dataLength.toNat).length = dataLength.toNat ∧
            ∀ s' : State, readPacketFromBT s = some s' →
              s'.btIn = s.btIn.drop (8 + dataLength.toNat))) := by
  refine ⟨?_, ?_⟩
  · intro h
    simp only [readPacketFromBT, if_pos h]
  · intro h8
    obtain ⟨packetType, ht⟩ := readInt32_isSome s.btIn 0 (by omega)
    obtain ⟨dataLength, hl⟩ := readInt32_isSome s.btIn 4 (by omega)
    have hn8 : ¬ s.btIn.length < 8 := by omega
    refine ⟨packetType, dataLength, ht, hl, ?_, ?_⟩
    · intro hz
      have hz' : dataLength = 0 ∨ packetType = 0 := hz.symm
      simp only [readPacketFromBT, if_neg hn8, ht, hl, if_pos hz']
    · intro hne hpos havail
      have hz' : ¬ (dataLength = 0 ∨ packetType = 0) := by
        rintro (h | h)
        · omega
        · exact hne h
      have hneg : ¬ dataLength < 0 := by omega
      refine ⟨serialPrintlnf
        { serialPrintlnf { s with btIn := s.btIn.drop 8, allocs := s.allocs + 1 } with
          btIn := (s.btIn.drop 8).drop dataLength.toNat }, ?_, ?_, ?_, ?_, ?_, ?_⟩
      · simp only [sameState, serialPrintlnf, serialPrintln, List.drop_drop, and_self]
      · simp only [serialPrintlnf, serialPrintln]
      · simp only [serialPrintlnf, serialPrintln]
      · have hm : ∀ o : Option State,
            (match o with
              | none => none
              | some s6 => some { s6 with frees := s6.frees + 1 })
            = Option.map (fun s6 => { s6 with frees := s6.frees + 1 }) o := by
          intro o
          cases o <;> rfl
        simp only [readPacketFromBT, if_neg hn8, ht, hl, if_neg hz', if_neg hneg]
        exact hm _
      · rw [List.length_take, List.length_drop]
        omega
      · intro s' hs'
        simp only [readPacketFromBT, if_neg hn8, ht, hl, if_neg hz', if_neg hneg] at hs'
        split at hs'
        · cases hs'
        · next s6 h6 =>
            cases hs'
            obtain ⟨a, -⟩ := handlePacket_transportKept _ _ _ _ h6
            show s6.btIn = _
            rw [a]
            show (s.btIn.drop 8).drop dataLength.toNat = s.btIn.drop (8 + dataLength.toNat)
            rw [List.drop_drop]

/-- Witness for C11 (amended): a complete Effect packet followed by one more
byte; the packet is dispatched and exactly the trailing byte is left. -/
theorem C11_framer_witness :
    ∃ s' : State,
      readPacketFromBT framedInput = some s' ∧
      s'.btIn = [9] ∧ s'.drv.waveform 0 = 47 ∧ s'.drv.waveform 1 = 13 ∧
      (∀ s'' : State, readPacketFromBT framedInput = some s'' →
        s''.btIn = framedInput.btIn.drop (8 + (6 : Int).toNat)) := by
  obtain ⟨packetType, dataLength, ht, hl, -, h⟩ := (C11_framer framedInput).2 (by decide)
  have e1 : packetType = 3 := by
    have : readInt32 framedInput.btIn 0 = some 3 := by decide
    rw [this] at ht
    exact (Option.some.inj ht).symm
  have e2 : dataLength = 6 := by
    have : readInt32 framedInput.btIn 4 = some 6 := by decide
    rw [this] at hl
    exact (Option.some.inj hl).symm
  subst e1 e2
  obtain ⟨pre, -, -, -, -, -, hb⟩ := h (by decide) (by decide) (by decide)
  exact ⟨_, rfl, rfl, rfl, rfl, hb⟩

/-! ## Playback tick, case by case -/

/-- Outside audio mode the playback tick only requests a pattern advance. -/
theorem tick_noAudio (s : State) (hau : s.audioMode = false) :
    onAudioPlaybackTimer s
      = some (if s.patternMode then { s with playNextPatternFlag := true } else s) := by
  unfold onAudioPlaybackTimer
  simp only [hau, Bool.false_eq_true, if_false]
  split <;> rfl

/-- In audio mode with an empty queue the playback tick returns at once. -/
theorem tick_empty (s : State) (hau : s.audioMode = true) (hq : s.chunkQueue = []) :
    onAudioPlaybackTimer s = some s := by
  unfold onAudioPlaybackTimer
  simp only [hau, if_true, hq]

/-- In audio mode with the front chunk still playing the playback tick only
requests a pattern advance. -/
theorem tick_playing (s : State) (c : WavChunk) (rest : List WavChunk)
    (hau : s.audioMode = true) (hq : s.chunkQueue = c :: rest) (hp : c.playing = true) :
    onAudioPlaybackTimer s
      = some (if s.patternMode then { s with playNextPatternFlag := true } else s) := by
  unfold onAudioPlaybackTimer
  simp only [hau, if_true, hq, hp, Bool.not_true, Bool.false_eq_true, if_false]
  split <;> rfl

/-- In audio mode with a single chunk that has finished, the playback tick
pops it and requests the exit from audio mode. -/
theorem tick_last (s : State) (c : WavChunk)
    (hau : s.audioMode = true) (hq : s.chunkQueue = [c]) (hp : c.playing = false) :
    onAudioPlaybackTimer s
      = some { s with
          chunkQueue := [], frees := s.frees + 2, exitAudiomodeFlag := true,
          serialLines := s.serialLines + 1 + 1 } := by
  unfold onAudioPlaybackTimer
  simp only [if_pos hau, hq, hp, Bool.not_false, List.isEmpty_nil, if_true]
  rfl

/-- In audio mode with at least two chunks of which the front one has
finished, the playback tick pops the front chunk and hands the next one to
the renderer. -/
theorem tick_next (s : State) (c c2 : WavChunk) (rest : List WavChunk)
    (hau : s.audioMode = true) (hq : s.chunkQueue = c :: c2 :: rest)
    (hp : c.playing = false) :
    onAudioPlaybackTimer s
      = some
        (if s.patternMode then
          { s with
            chunkQueue := { c2 with playing := true } :: rest, frees := s.frees + 2,
            dacCalls := s.dacCalls ++ [DacCall.play c2.soundId c2.chunkId],
            serialLines := s.serialLines + 1, playNextPatternFlag := true }
        else
          { s with
            chunkQueue := { c2 with playing := true } :: rest, frees := s.frees + 2,
            dacCalls := s.dacCalls ++ [DacCall.play c2.soundId c2.chunkId],
            serialLines := s.serialLines + 1 }) := by
  unfold onAudioPlaybackTimer
  simp only [if_pos hau, if_true, hq, hp, Bool.not_false, List.isEmpty_cons, Bool.false_eq_true,
    if_false, dacPlayFront, serialPrintln]
  split <;> rfl

/-- C18: in audio mode the playback tick is a FIFO step. With an empty queue
it returns the state unchanged. With the front chunk still playing it leaves
the queue unchanged, starts no chunk and leaves `exitAudiomodeFlag` alone.
With the front chunk not playing and at least two chunks queued it removes
exactly the oldest chunk, hands the next chunk (the new front) to the
renderer, which marks it playing, keeps the other chunks in order and leaves
`exitAudiomodeFlag` alone. With a single chunk that is not playing it empties
the queue, sets `exitAudiomodeFlag` and starts no chunk. -/
theorem C18_playback_tick_fifo (s : State) (hau : s.audioMode = true) :
    (s.chunkQueue = [] → onAudioPlaybackTimer s = some s) ∧
    (∀ (c : WavChunk) (rest : List WavChunk), s.chunkQueue = c :: rest → c.playing = true →
      ∃ s' : State, onAudioPlaybackTimer s = some s' ∧
        s'.chunkQueue = s.chunkQueue ∧ s'.dacCalls = s.dacCalls ∧
        s'.exitAudiomodeFlag = s.exitAudiomodeFlag ∧ s'.frees = s.frees) ∧
    (∀ (c c2 : WavChunk) (rest : List WavChunk), s.chunkQueue = c :: c2 :: rest →
      c.playing = false →
      ∃ s' : State, onAudioPlaybackTimer s = some s' ∧
        s'.chunkQueue = { c2 with playing := true } :: rest ∧
        s'.chunkQueue.length + 1 = s.chunkQueue.length ∧
        s'.dacCalls = s.dacCalls ++ [DacCall.play c2.soundId c2.chunkId] ∧
        s'.exitAudiomodeFlag = s.exitAudiomodeFlag) ∧
    (∀ c : WavChunk, s.chunkQueue = [c] → c.playing = false →
      ∃ s' : State, onAudioPlaybackTimer s = some s' ∧
        s'.chunkQueue = [] ∧ s'.exitAudiomodeFlag = true ∧ s'.dacCalls = s.dacCalls) := by
  refine ⟨fun hq => tick_empty s hau hq, ?_, ?_, ?_⟩
  · intro c rest hq hp
    refine ⟨_, tick_playing s c rest hau hq hp, ?_⟩
    split <;> exact ⟨rfl, rfl, rfl, rfl⟩
  · intro c c2 rest hq hp
    refine ⟨_, tick_next s c c2 rest hau hq hp, ?_⟩
    have hlen : ((({ c2 with playing := true } : WavChunk) :: rest).length + 1)
        = s.chunkQueue.length := by
      rw [hq]
      rfl
    split <;> exact ⟨rfl, hlen, rfl, rfl⟩
  · intro c hq hp
    exact ⟨_, tick_last s c hau hq hp, rfl, rfl, rfl⟩

/-- Witness for C18: two chunks queued (chunk 0, chunk 1), chunk 0 finished;
the tick removes chunk 0 and starts chunk 1. -/
theorem C18_playback_tick_fifo_witness :
    ∃ s' : State, onAudioPlaybackTimer twoChunksFinished = some s' ∧
      s'.chunkQueue
        = [{ soundId := 1, chunkId := 1, wavData := List.replicate 46 0, playing := true }] ∧
      s'.dacCalls = twoChunksFinished.dacCalls ++ [DacCall.play 1 1] ∧
      s'.exitAudiomodeFlag = twoChunksFinished.exitAudiomodeFlag := by
  obtain ⟨s', h1, h2, -, h4, h5⟩ :=
    (C18_playback_tick_fifo twoChunksFinished rfl).2.2.1
      { soundId := 1, chunkId := 0, wavData := List.replicate 46 0, playing := false }
      { soundId := 1, chunkId := 1, wavData := List.replicate 46 0, playing := false }
      [] rfl rfl
  exact ⟨s', h1, h2, h4, h5⟩

/-! ## What the timer callbacks touch -/

/-- The refill tick in audio mode, field by field. -/
theorem onChunkBufferTimer_audio (s : State) (hau : s.audioMode = true)
    (hsize : s.chunkQueue.length < 2147483648) :
    onChunkBufferTimer s
      = some { s with
          it1 := s.it1 + 1,
          btWrites := s.btWrites ++
            List.replicate (max (0 : Int) (5 - (s.chunkQueue.length : Int))).toNat
              soundRequestPacket,
          serialLines := s.serialLines + 1 + 1,
          allocs := s.allocs + 1 + 1, frees := s.frees + 1 + 1 } := by
  unfold onChunkBufferTimer
  simp only [if_pos hau, Bool.not_true, Bool.false_eq_true, if_false, hau]
  rw [forRange_requests]
  have hq : (serialPrintlnf s).chunkQueue.length = s.chunkQueue.length := rfl
  rw [hq, refill_diff _ hsize]
  simp only [serialPrintlnf, serialPrintln, hau]

/-- The refill tick outside audio mode does nothing. -/
theorem onChunkBufferTimer_idle (s : State) (hau : s.audioMode = false) :
    onChunkBufferTimer s = some s := by
  unfold onChunkBufferTimer
  simp only [hau, Bool.not_false, if_true]

/-- The playback tick always returns; it allocates nothing, keeps what
`TickKeeps` lists, and either leaves the queue alone and releases nothing, or
pops exactly the finished front chunk in audio mode and releases its two
buffers. -/
theorem onAudioPlaybackTimer_touch (s : State) :
    ∃ s' : State, onAudioPlaybackTimer s = some s' ∧
      TickKeeps s s' ∧ s'.allocs = s.allocs ∧ s'.btWrites = s.btWrites ∧ s'.it1 = s.it1 ∧
      ((s'.chunkQueue = s.chunkQueue ∧ s'.frees = s.frees ∧
          s'.exitAudiomodeFlag = s.exitAudiomodeFlag ∧ s'.dacCalls = s.dacCalls) ∨
        (∃ (c : WavChunk) (rest : List WavChunk),
          s.audioMode = true ∧ s.chunkQueue = c :: rest ∧ c.playing = false ∧
          s'.chunkQueue.length = rest.length ∧ s'.frees = s.frees + 2)) := by
  have keep : ∀ t : State, TickKeeps s t →
      TickKeeps s (if s.patternMode then { t with playNextPatternFlag := true } else t) := by
    intro t ht
    split
    · exact ht
    · exact ht
  cases hau : s.audioMode with
  | false =>
      refine ⟨_, tick_noAudio s hau, ?_⟩
      split <;>
        exact ⟨⟨rfl, rfl, rfl, rfl, rfl, rfl, rfl, rfl, rfl, rfl, rfl, rfl, rfl, rfl⟩, rfl, rfl,
          rfl, Or.inl ⟨rfl, rfl, rfl, rfl⟩⟩
  | true =>
      cases hq : s.chunkQueue with
      | nil =>
          refine ⟨_, tick_empty s hau hq, ?_⟩
          exact ⟨⟨rfl, rfl, rfl, rfl, rfl, rfl, rfl, rfl, rfl, rfl, rfl, rfl, rfl, rfl⟩, rfl, rfl,
            rfl, Or.inl ⟨hq, rfl, rfl, rfl⟩⟩
      | cons c rest =>
          cases hp : c.playing with
          | true =>
              refine ⟨_, tick_playing s c rest hau hq hp, ?_⟩
              split <;>
                exact ⟨⟨rfl, rfl, rfl, rfl, rfl, rfl, rfl, rfl, rfl, rfl, rfl, rfl, rfl, rfl⟩,
                  rfl, rfl, rfl, Or.inl ⟨hq, rfl, rfl, rfl⟩⟩
          | false =>
              cases rest with
              | nil =>
                  refine ⟨_, tick_last s c hau hq hp, ?_⟩
                  exact ⟨⟨rfl, rfl, rfl, rfl, rfl, rfl, rfl, rfl, rfl, rfl, rfl, rfl, rfl, rfl⟩,
                    rfl, rfl, rfl, Or.inr ⟨c, [], rfl, rfl, hp, rfl, rfl⟩⟩
              | cons c2 rest2 =>
                  refine ⟨_, tick_next s c c2 rest2 hau hq hp, ?_⟩
                  split <;>
                    exact ⟨⟨rfl, rfl, rfl, rfl, rfl, rfl, rfl, rfl, rfl, rfl, rfl, rfl, rfl, rfl⟩,
                      rfl, rfl, rfl, Or.inr ⟨c, c2 :: rest2, rfl, rfl, hp, rfl, rfl⟩⟩

/-- C12, as stated, fails: with two chunks queued and the front one finished
the playback tick pops a chunk (the queue shrinks from 2 to 1 and the two
buffers of the chunk are released), and in audio mode the refill tick
allocates and releases two print buffers, increments `it1` and writes three
packets to the transport. -/
theorem C12_callbacks_touch_more_counterexample :
    (∃ s1 : State,
      onAudioPlaybackTimer twoChunksFinished = some s1 ∧
      twoChunksFinished.chunkQueue.length = 2 ∧ s1.chunkQueue.length = 1 ∧
      s1.chunkQueue ≠ twoChunksFinished.chunkQueue ∧
      s1.frees = twoChunksFinished.frees + 2) ∧
    (∃ s2 : State,
      onChunkBufferTimer audioState2 = some s2 ∧
      s2.allocs = audioState2.allocs + 2 ∧ s2.frees = audioState2.frees + 2 ∧
      s2.it1 = audioState2.it1 + 1 ∧
      s2.btWrites.length = audioState2.btWrites.length + 3) :=
  ⟨⟨_, rfl, rfl, rfl, by decide, rfl⟩, ⟨_, rfl, rfl, rfl, rfl, rfl⟩⟩

/-- C12, amended: both timer callbacks always return (the refill tick for a
queue that fits the address space) and leave the mode flags, both alarms, the
driver, the register snapshot, the pattern and the inbound bytes alone;
neither clears the queue. The refill tick leaves the queue and both deferred
flags unchanged; outside audio mode it changes nothing, in audio mode it
increments `it1`, allocates and releases two print buffers and writes the
request packets. The playback tick allocates nothing and writes nothing to the
transport; it either leaves the queue unchanged and releases nothing, or, in
audio mode with a finished front chunk, removes exactly that chunk and
releases its two buffers. -/
theorem C12_callbacks_touch (s : State) (hsize : s.chunkQueue.length < 2147483648) :
    (∃ s1 : State, onChunkBufferTimer s = some s1 ∧
      TickKeeps s s1 ∧ s1.chunkQueue = s.chunkQueue ∧
      s1.exitAudiomodeFlag = s.exitAudiomodeFlag ∧
      s1.playNextPatternFlag = s.playNextPatternFlag ∧ s1.dacCalls = s.dacCalls ∧
      (s.audioMode = false → s1 = s) ∧
      (s.audioMode = true →
        s1.allocs = s.allocs + 2 ∧ s1.frees = s.frees + 2 ∧ s1.it1 = s.it1 + 1)) ∧
    (∃ s2 : State, onAudioPlaybackTimer s = some s2 ∧
      TickKeeps s s2 ∧ s2.allocs = s.allocs ∧ s2.btWrites = s.btWrites ∧ s2.it1 = s.it1 ∧
      ((s2.chunkQueue = s.chunkQueue ∧ s2.frees = s.frees ∧
          s2.exitAudiomodeFlag = s.exitAudiomodeFlag ∧ s2.dacCalls = s.dacCalls) ∨
        (∃ (c : WavChunk) (rest : List WavChunk),
          s.audioMode = true ∧ s.chunkQueue = c :: rest ∧ c.playing = false ∧
          s2.chunkQueue.length = rest.length ∧ s2.frees = s.frees + 2))) := by
  refine ⟨?_, onAudioPlaybackTimer_touch s⟩
  cases hau : s.audioMode with
  | false =>
      refine ⟨s, onChunkBufferTimer_idle s hau, ?_, rfl, rfl, rfl, rfl, fun _ => rfl, ?_⟩
      · exact ⟨rfl, rfl, rfl, rfl, rfl, rfl, rfl, rfl, rfl, rfl, rfl, rfl, rfl, rfl⟩
      · intro h
        cases h
  | true =>
      refine ⟨_, onChunkBufferTimer_audio s hau hsize, ?_, rfl, rfl, rfl, rfl, ?_, ?_⟩
      · exact ⟨rfl, rfl, rfl, rfl, rfl, rfl, rfl, rfl, rfl, rfl, rfl, rfl, rfl, rfl⟩
      · intro h
        cases h
      · intro _
        exact ⟨rfl, rfl, rfl⟩

/-- Witness for C12 (amended): audio mode with two chunks queued. -/
theorem C12_callbacks_touch_witness :
    (∃ s1 : State, onChunkBufferTimer audioState2 = some s1 ∧
      s1.chunkQueue = audioState2.chunkQueue ∧
      s1.allocs = audioState2.allocs + 2 ∧ s1.frees = audioState2.frees + 2 ∧
      s1.it1 = audioState2.it1 + 1) ∧
    (∃ s2 : State, onAudioPlaybackTimer audioState2 = some s2 ∧
      s2.allocs = audioState2.allocs ∧ s2.btWrites = audioState2.btWrites) := by
  obtain ⟨⟨s1, h1, -, h2, -, -, -, -, h3⟩, ⟨s2, k1, -, k2, k3, -⟩⟩ :=
    C12_callbacks_touch audioState2 (by decide)
  obtain ⟨a, b, c⟩ := h3 rfl
  exact ⟨⟨s1, h1, h2, a, b, c⟩, ⟨s2, k1, k2, k3⟩⟩

/-! ## Coupling registers across an audio session -/

/-- Entering audio mode overwrites the two coupling registers and switches
the driver to the audio-coupled mode. -/
theorem soundEnterAudio_regs (s s' : State) (hau : s.audioMode = false)
    (h : soundEnterAudio s = some s') :
    s'.audioMode = true ∧
    s'.drv.regs REG_AC_COUPLE = BIT_AC_COUPLE ∧
    s'.drv.regs REG_N_PWM_ANALOG = BIT_N_PWM_ANALOG ∧
    s'.drv.mode = DRV2605_MODE_AUDIOVIBE ∧
    s'.chunkBufferTimer.enabled = true ∧ s'.audioPlaybackTimer.enabled = true := by
  unfold soundEnterAudio at h
  simp only [hau, Bool.not_false, if_true] at h
  split at h
  · cases h
  · next s10 h10 =>
      cases h
      unfold dacPlayFront at h10
      split at h10
      · cases h10
      · cases h10
        refine ⟨rfl, ?_, ?_, rfl, rfl, rfl⟩
        · simp [drvWriteRegister8, drvSetMode, dacFillBuffer, REG_AC_COUPLE, REG_N_PWM_ANALOG,
            DRV2605_REG_CONTROL1, DRV2605_REG_CONTROL3]
        · simp [drvWriteRegister8, drvSetMode, dacFillBuffer]

theorem handleVibrationSound_enters (s s' : State) (data : List Byte)
    (hau : s.audioMode = false) (h : handleVibrationSound s data = some s') :
    s'.audioMode = true ∧
    s'.drv.regs REG_AC_COUPLE = BIT_AC_COUPLE ∧
    s'.drv.regs REG_N_PWM_ANALOG = BIT_N_PWM_ANALOG ∧
    s'.drv.mode = DRV2605_MODE_AUDIOVIBE ∧
    s'.chunkBufferTimer.enabled = true ∧ s'.audioPlaybackTimer.enabled = true := by
  unfold handleVibrationSound at h
  split at h
  · simp only at h
    split at h
    · cases h
    · split at h
      · cases h
      · split at h
        · cases h
        · next s4 h4 =>
            obtain ⟨-, -, a3, -⟩ := soundLeaveOtherModes_spec _ _ h4
            exact soundEnterAudio_regs s4 s' (a3.trans hau) h
  · cases h

/-- C13: take a reachable state outside audio mode, a Sound packet that
enters audio mode there (it overwrites the two coupling registers with the
audio-coupling values), any events after it, and then the audio exit path
(`handleVibrationSoundRequest` with request kind 2). The exit returns, and
after it the coupling registers CONTROL1 and CONTROL3 hold the values they
held immediately before that Sound packet, and the driver is in triggered
mode. -/
theorem C13_register_round_trip (s s1 t : State) (data stop : List Byte) (es : List Event)
    (hreach : Reachable s) (hidle : s.audioMode = false)
    (hsound : handleVibrationSound s data = some s1)
    (hrun : run s1 es = some t)
    (hstop : readInt32 stop 0 = some 2) :
    s1.audioMode = true ∧
    s1.drv.regs DRV2605_REG_CONTROL1 = BIT_AC_COUPLE ∧
    s1.drv.regs DRV2605_REG_CONTROL3 = BIT_N_PWM_ANALOG ∧
    ∃ s' : State,
      handleVibrationSoundRequest t stop = some s' ∧
      s'.audioMode = false ∧
      s'.drv.regs DRV2605_REG_CONTROL1 = s.drv.regs DRV2605_REG_CONTROL1 ∧
      s'.drv.regs DRV2605_REG_CONTROL3 = s.drv.regs DRV2605_REG_CONTROL3 ∧
      s'.drv.mode = DRV2605_MODE_INTTRIG := by
  obtain ⟨e1, e2, e3, -⟩ := handleVibrationSound_enters s s1 data hidle hsound
  obtain ⟨-, i2, -, -⟩ := hreach.inv
  obtain ⟨-, -, j3, j4⟩ := i2 hidle
  obtain ⟨-, -, k3, k4⟩ := handleVibrationSound_transportKept s s1 data hsound
  obtain ⟨r3, r4⟩ := run_snapshot es s1 t hrun
  obtain ⟨s', hs', q1, -, -, -, q5, -⟩ := handleVibrationSoundRequest_stop t stop hstop
  have hne : REG_AC_COUPLE ≠ REG_N_PWM_ANALOG := by decide
  refine ⟨e1, e2, e3, s', hs', q1, ?_, ?_, ?_⟩
  · rw [q5]
    show (if REG_AC_COUPLE = REG_N_PWM_ANALOG then t.regPWMAnalog
      else if REG_AC_COUPLE = REG_AC_COUPLE then t.regACCouple
      else t.drv.regs REG_AC_COUPLE) = s.drv.regs REG_AC_COUPLE
    rw [if_neg hne, if_pos rfl, r3, k3, j3]
  · rw [q5]
    show (if REG_N_PWM_ANALOG = REG_N_PWM_ANALOG then t.regPWMAnalog
      else if REG_N_PWM_ANALOG = REG_AC_COUPLE then t.regACCouple
      else t.drv.regs REG_N_PWM_ANALOG) = s.drv.regs REG_N_PWM_ANALOG
    rw [if_pos rfl, r4, k4, j4]
  · rw [q5]

/-- Witness for C13: from the state after `setup()`, one Sound packet, the
renderer finishing the chunk, one playback tick, then the exit. -/
theorem C13_register_round_trip_witness :
    ∃ s1 t : State,
      handleVibrationSound bootState soundPayload = some s1 ∧
      run s1 [Event.rendererDone 0, Event.audioPlaybackTick] = some t ∧
      s1.audioMode = true ∧
      s1.drv.regs DRV2605_REG_CONTROL1 = BIT_AC_COUPLE ∧
      s1.drv.regs DRV2605_REG_CONTROL3 = BIT_N_PWM_ANALOG ∧
      ∃ s' : State,
        handleVibrationSoundRequest t [2, 0, 0, 0] = some s' ∧
        s'.audioMode = false ∧
        s'.drv.regs DRV2605_REG_CONTROL1 = bootState.drv.regs DRV2605_REG_CONTROL1 ∧
        s'.drv.regs DRV2605_REG_CONTROL3 = bootState.drv.regs DRV2605_REG_CONTROL3 ∧
        s'.drv.mode = DRV2605_MODE_INTTRIG :=
  ⟨_, _, rfl, rfl,
    C13_register_round_trip bootState _ _ soundPayload [2, 0, 0, 0]
      [Event.rendererDone 0, Event.audioPlaybackTick] ⟨bootDrv, [], rfl⟩ rfl rfl rfl
      (by decide)⟩

/-! ## Outbound transport -/

theorem onChunkBufferTimer_writes (s s' : State) (h : onChunkBufferTimer s = some s') :
    ∃ k : Nat, s'.btWrites = s.btWrites ++ List.replicate k soundRequestPacket := by
  unfold onChunkBufferTimer at h
  split at h
  · cases h
    exact ⟨0, by simp⟩
  · simp only at h
    rw [forRange_requests] at h
    cases h
    exact ⟨_, rfl⟩

theorem readPacketFromBT_btWrites (s s' : State) (h : readPacketFromBT s = some s') :
    s'.btWrites = s.btWrites := by
  unfold readPacketFromBT at h
  split at h
  · cases h
    rfl
  · split at h
    · simp only at h
      split at h
      · cases h
        rfl
      · split at h
        · cases h
        · split at h
          · cases h
          · next s6 h6 =>
              cases h
              obtain ⟨-, b, -⟩ := handlePacket_transportKept _ _ _ _ h6
              show s6.btWrites = s.btWrites
              rw [b]
              simp only [serialPrintlnf, serialPrintln]
    · cases h

theorem loop_btWrites (s s' : State) (h : loop s = some s') : s'.btWrites = s.btWrites := by
  unfold loop at h
  split at h
  · cases h
  · next s1 h1 =>
      obtain ⟨-, b, -⟩ := loopDeferred_transportKept _ _ h1
      simp only at h
      split at h
      · cases h
      · next s2 h2 =>
          cases h
          show s2.btWrites = s.btWrites
          rw [← b]
          split at h2
          · exact readPacketFromBT_btWrites _ _ h2
          · cases h2
            rfl

theorem run_btWrites (es : List Event) :
    ∀ (s s' : State), run s es = some s' →
      (∀ m ∈ s.btWrites, m = soundRequestPacket) →
      ∀ m ∈ s'.btWrites, m = soundRequestPacket := by
  induction es with
  | nil =>
      intro s s' h hall
      simp only [run, Option.some.injEq] at h
      subst h
      exact hall
  | cons e es ih =>
      intro s s' h hall
      simp only [run] at h
      split at h
      · cases h
      · next s1 h1 =>
          refine ih s1 s' h ?_
          by_cases he : e = Event.chunkBufferTick
          · subst he
            simp only [step] at h1
            split at h1
            · obtain ⟨k, hk⟩ := onChunkBufferTimer_writes _ _ h1
              intro m hm
              rw [hk] at hm
              rcases List.mem_append.mp hm with hm | hm
              · exact hall m hm
              · exact (List.mem_replicate.mp hm).2
            · cases h1
          · obtain ⟨-, -, -, d⟩ := step_transportKept _ _ _ h1
            rw [d he]
            exact hall

/-- C14: the message appended to the transport by `requestNewAudioChunk` is
the 12 bytes 06 00 00 00 04 00 00 00 01 00 00 00, the little-endian int32
values 6, 4 and 1. No other function writes to the transport: every event
other than the refill tick, `readPacketFromBT` and `loop()` leave the
outbound messages as they are, the refill tick only appends copies of that
message, and in every reachable state every message written so far is that
message. -/
theorem C14_only_sound_requests (s : State) (hreach : Reachable s) :
    soundRequestPacket = [6, 0, 0, 0, 4, 0, 0, 0, 1, 0, 0, 0] ∧
    soundRequestPacket.length = 12 ∧
    soundRequestPacket = int32Bytes 6 ++ int32Bytes 4 ++ int32Bytes 1 ∧
    (∀ t : State, (requestNewAudioChunk t).btWrites = t.btWrites ++ [soundRequestPacket]) ∧
    (∀ m ∈ s.btWrites, m = soundRequestPacket) ∧
    (∀ (e : Event) (s' : State), step s e = some s' → e ≠ Event.chunkBufferTick →
      s'.btWrites = s.btWrites) ∧
    (∀ s' : State, step s Event.chunkBufferTick = some s' →
      ∃ k : Nat, s'.btWrites = s.btWrites ++ List.replicate k soundRequestPacket) ∧
    (∀ s' : State, readPacketFromBT s = some s' → s'.btWrites = s.btWrites) ∧
    (∀ s' : State, loop s = some s' → s'.btWrites = s.btWrites) := by
  refine ⟨rfl, rfl, by decide, ?_, ?_, ?_, ?_, readPacketFromBT_btWrites s, loop_btWrites s⟩
  · intro t
    rw [requestNewAudioChunk_eq]
  · obtain ⟨d, es, hrun⟩ := hreach
    refine run_btWrites es _ _ hrun ?_
    intro m hm
    cases hm
  · intro e s' h he
    exact (step_transportKept _ _ _ h).2.2.2 he
  · intro s' h
    simp only [step] at h
    split at h
    · exact onChunkBufferTimer_writes _ _ h
    · cases h

/-- Witness for C14: a reachable state with three messages written. -/
theorem C14_only_sound_requests_witness :
    requestedState.btWrites.length = 3 ∧
    (∀ m ∈ requestedState.btWrites, m = soundRequestPacket) ∧
    soundRequestPacket.length = 12 := by
  have h := C14_only_sound_requests requestedState
    ⟨bootDrv,
      [Event.packet PacketType.VibrationSound soundPayload,
       Event.packet PacketType.VibrationSound soundPayload, Event.chunkBufferTick], rfl⟩
  exact ⟨rfl, h.2.2.2.2.1, h.2.1⟩

/-! ## Pattern-Resume, Pattern-Play and Realtime against the other modes -/

/-- C15 (code defect): with a null pattern pointer Pattern-Resume changes
nothing. After Pattern-Play and then a Sound packet the pattern has been
dropped (`patternLength` is 0, the buffer is released) but the pointer is not
null, and Pattern-Resume is not a no-op: it sets `patternMode` and issues the
driver call `setMode(REALTIME)`, switching the driver out of the
audio-coupled mode while `audioMode` is still true. -/
theorem C15_resume_after_dropped_pattern :
    (∀ (s : State) (data : List Byte), s.currentPattern = PatternPtr.null →
      readInt32 data 0 = some PatternStatus.Resume →
      handleVibrationPatternPacket s data = some s) ∧
    (∃ s1 s2 : State,
      run bootState
        [Event.packet PacketType.VibrationPattern playPayload, Event.drain,
         Event.packet PacketType.VibrationSound soundPayload, Event.drain] = some s1 ∧
      s1.patternLength = 0 ∧ s1.currentPattern = PatternPtr.dangling ∧
      s1.patternMode = false ∧ s1.audioMode = true ∧
      s1.drv.mode = DRV2605_MODE_AUDIOVIBE ∧
      readInt32 [3, 0, 0, 0] 0 = some PatternStatus.Resume ∧
      handlePacket s1 PacketType.VibrationPattern [3, 0, 0, 0] = some s2 ∧
      s2.patternMode = true ∧ s2.audioMode = true ∧
      s2.drvCalls = s1.drvCalls ++ [DrvCall.setMode DRV2605_MODE_REALTIME] ∧
      s2.drv.mode = DRV2605_MODE_REALTIME) := by
  refine ⟨?_, ⟨_, _, rfl, rfl, rfl, rfl, rfl, rfl, by decide, rfl, rfl, rfl, rfl, rfl⟩⟩
  intro s data hnull hres
  have e31 : ¬ PatternStatus.Resume = PatternStatus.Play := by decide
  have e32 : ¬ PatternStatus.Resume = PatternStatus.Stop := by decide
  simp only [handleVibrationPatternPacket, hres, if_neg e31, if_neg e32, if_true, if_pos hnull]

/-- C16 (code defect): a Pattern-Play packet handled in audio mode. Afterwards
`audioMode` is false, the queue is empty, the refill alarm is disabled,
`patternMode` is true, the new pattern is installed and the playback alarm is
enabled, but the driver is in triggered mode, not in realtime mode: the audio
exit path runs after `setMode(REALTIME)` and calls `setMode(INTTRIG)`. -/
theorem C16_play_in_audio_mode_leaves_inttrig :
    ∃ s1 s2 : State,
      run bootState [Event.packet PacketType.VibrationSound soundPayload, Event.drain]
        = some s1 ∧
      s1.audioMode = true ∧ s1.chunkQueue.length = 1 ∧
      handlePacket s1 PacketType.VibrationPattern playPayload = some s2 ∧
      s2.audioMode = false ∧ s2.chunkQueue = [] ∧ s2.chunkBufferTimer.enabled = false ∧
      s2.patternMode = true ∧ s2.currentPattern = PatternPtr.live [10, 20] ∧
      s2.audioPlaybackTimer.enabled = true ∧
      s2.drv.mode = DRV2605_MODE_INTTRIG ∧
      s2.drv.mode ≠ DRV2605_MODE_REALTIME ∧
      s2.drvCalls = s1.drvCalls ++
        [DrvCall.setMode DRV2605_MODE_REALTIME, DrvCall.setMode DRV2605_MODE_INTTRIG,
         DrvCall.writeRegister8 REG_AC_COUPLE 0, DrvCall.writeRegister8 REG_N_PWM_ANALOG 0] :=
  ⟨_, _, rfl, rfl, rfl, rfl, rfl, rfl, rfl, rfl, rfl, rfl, rfl, by decide, rfl⟩

/-- C17 (code defect): `handleRealtime` always returns on a payload of two
bytes, sets `realTimeMode`, writes the low 8 bits of the value and issues the
mode switch exactly when `realTimeMode` was false. After a Realtime packet, a
Sound-Stop request and another Realtime packet the driver is nevertheless in
triggered mode: the exit path calls `setMode(INTTRIG)` and leaves
`realTimeMode` true, so the second Realtime packet issues no mode switch. -/
theorem C17_realtime_after_stop_stays_inttrig :
    (∀ (s : State) (data : List Byte) (v : Int), readInt16 data 0 = some v →
      ∃ s' : State, handleRealtime s data = some s' ∧
        s'.realTimeMode = true ∧ s'.drv.rtp = (v % 256).toNat ∧
        (s.realTimeMode = false →
          s'.drvCalls = s.drvCalls ++
            [DrvCall.setMode DRV2605_MODE_REALTIME, DrvCall.setRealtimeValue (v % 256).toNat] ∧
          s'.drv.mode = DRV2605_MODE_REALTIME) ∧
        (s.realTimeMode = true →
          s'.drvCalls = s.drvCalls ++ [DrvCall.setRealtimeValue (v % 256).toNat] ∧
          s'.drv.mode = s.drv.mode)) ∧
    (∃ s1 s2 : State,
      run bootState
        [Event.packet PacketType.VibrationRealtime realtimePayload, Event.drain,
         Event.packet PacketType.VibrationSoundRequest [2, 0, 0, 0], Event.drain] = some s1 ∧
      s1.realTimeMode = true ∧ s1.drv.mode = DRV2605_MODE_INTTRIG ∧
      readInt16 realtimePayload 0 = some 7 ∧
      handlePacket s1 PacketType.VibrationRealtime realtimePayload = some s2 ∧
      s2.realTimeMode = true ∧ s2.drv.rtp = 7 ∧
      s2.drvCalls = s1.drvCalls ++ [DrvCall.setRealtimeValue 7] ∧
      s2.drv.mode = DRV2605_MODE_INTTRIG ∧
      s2.drv.mode ≠ DRV2605_MODE_REALTIME) := by
  refine ⟨?_, ⟨_, _, rfl, rfl, rfl, by decide, rfl, rfl, rfl, rfl, rfl, by decide⟩⟩
  intro s data v hv
  by_cases hrt : s.realTimeMode = true
  · have hrt1 : (serialPrintlnf s).realTimeMode = true := hrt
    refine ⟨drvSetRealtimeValue (serialPrintlnf s) (toUInt8 v), ?_, hrt, rfl, ?_, ?_⟩
    · simp only [handleRealtime, hv, hrt1, Bool.not_true, Bool.false_eq_true, if_false]
    · intro hf
      rw [hrt] at hf
      cases hf
    · intro _
      exact ⟨rfl, rfl⟩
  · have hrt0 : s.realTimeMode = false := by simpa using hrt
    have hrt1 : (serialPrintlnf s).realTimeMode = false := hrt0
    refine ⟨drvSetRealtimeValue
      { drvSetMode (serialPrintlnf s) DRV2605_MODE_REALTIME with realTimeMode := true }
      (toUInt8 v), ?_, rfl, rfl, ?_, ?_⟩
    · simp only [handleRealtime, hv, hrt1, Bool.not_false, if_true]
    · intro _
      refine ⟨?_, rfl⟩
      simp [drvSetRealtimeValue, drvSetMode, serialPrintlnf, serialPrintln, toUInt8]
    · intro ht
      rw [hrt0] at ht
      cases ht

/-! ## Deferred pattern advance -/

/-- Under the pattern invariant a pending advance inside the pattern reads
inside the live buffer. -/
theorem patInv_read (s : State) (hinv : PatInv s) (hlt : s.patternIt < s.patternLength) :
    ∃ (buf : List Byte) (b : Byte),
      s.currentPattern = PatternPtr.live buf ∧ s.patternLength = (buf.length : Int) ∧
      0 ≤ s.patternIt ∧ s.patternIt.toNat < buf.length ∧
      buf[s.patternIt.toNat]? = some b := by
  obtain ⟨h1, -, h3⟩ := hinv
  cases hp : s.currentPattern with
  | null =>
      rw [hp] at h3
      omega
  | dangling =>
      rw [hp] at h3
      omega
  | live buf =>
      rw [hp] at h3
      have h3' : s.patternLength = (buf.length : Int) := h3
      have hidx : s.patternIt.toNat < buf.length := by omega
      exact ⟨buf, buf[s.patternIt.toNat], rfl, h3', by omega, hidx,
        List.getElem?_eq_getElem hidx⟩

/-- C19: the deferred pattern advance of `loop()`, on a state that satisfies
the pattern invariant (every reachable state does, and so does the state
between the two deferred actions). With `playNextPatternFlag` set and
`patternIt < patternLength` it returns, exactly one driver call is made,
`setRealtimeValue(currentPattern[patternIt])`, `patternIt` grows by exactly 2
and the flag is cleared; pattern data and length are kept. With the flag set
and `patternIt >= patternLength` it returns the state unchanged (nothing
written, cursor unchanged). With the flag not set it returns the state
unchanged. -/
theorem C19_deferred_pattern_advance (s : State) (hinv : PatInv s) :
    (s.playNextPatternFlag = true → s.patternIt < s.patternLength →
      ∃ (buf : List Byte) (b : Byte) (s' : State),
        s.currentPattern = PatternPtr.live buf ∧ 0 ≤ s.patternIt ∧
        buf[s.patternIt.toNat]? = some b ∧
        loopPatternAdvance s = some s' ∧
        s'.drvCalls = s.drvCalls ++ [DrvCall.setRealtimeValue b.val] ∧
        s'.drv.rtp = b.val ∧
        s'.patternIt = s.patternIt + 2 ∧
        s'.playNextPatternFlag = false ∧
        s'.currentPattern = s.currentPattern ∧ s'.patternLength = s.patternLength) ∧
    (s.playNextPatternFlag = true → ¬ s.patternIt < s.patternLength →
      loopPatternAdvance s = some s) ∧
    (s.playNextPatternFlag = false → loopPatternAdvance s = some s) := by
  refine ⟨?_, ?_, ?_⟩
  · intro hflag hlt
    obtain ⟨buf, b, hp, -, hnn, -, hb⟩ := patInv_read s hinv hlt
    have hneg : ¬ s.patternIt < 0 := not_lt.mpr hnn
    refine ⟨buf, b,
      { drvSetRealtimeValue s b.val with
        patternIt := s.patternIt + 2, playNextPatternFlag := false },
      hp, hnn, hb, ?_, rfl, rfl, rfl, rfl, rfl, rfl⟩
    simp only [loopPatternAdvance, hflag, if_true, hlt, hp, if_neg hneg, hb]
    rfl
  · intro hflag hge
    simp only [loopPatternAdvance, hflag, if_true, if_neg hge]
  · intro hflag
    simp only [loopPatternAdvance, hflag, Bool.false_eq_true, if_false]

/-- Witness for C19: a pending advance with the cursor at 1 in the pattern
10, 20; the value 20 is written and the cursor moves to 3. -/
theorem C19_deferred_pattern_advance_witness :
    ∃ s' : State,
      advancePendingState.playNextPatternFlag = true ∧
      advancePendingState.patternIt = 1 ∧ advancePendingState.patternLength = 2 ∧
      loopPatternAdvance advancePendingState = some s' ∧
      s'.drvCalls = advancePendingState.drvCalls ++ [DrvCall.setRealtimeValue 20] ∧
      s'.patternIt = 3 ∧ s'.playNextPatternFlag = false := by
  have hreach : Reachable advancePendingState :=
    ⟨bootDrv, [Event.packet PacketType.VibrationPattern playPayload,
      Event.audioPlaybackTick], rfl⟩
  obtain ⟨buf, b, s', -, -, -, h4, -⟩ :=
    (C19_deferred_pattern_advance advancePendingState hreach.patInv).1 rfl (by decide)
  have h4' : loopPatternAdvance advancePendingState = some s' := h4
  have hs' : some s' = loopPatternAdvance advancePendingState := h4'.symm
  refine ⟨s', rfl, rfl, rfl, h4, ?_, ?_, ?_⟩ <;>
    · cases hs'
      rfl

/-- C20: in every reachable state the cursor `patternIt` is odd and at least
1, and the read `currentPattern[patternIt]` of the deferred drain is inside
the installed, not released, pattern buffer: whenever an advance is pending
with `patternIt < patternLength`, the pattern pointer is live,
`patternLength` is the size of its buffer and `0 <= patternIt <
patternLength`. The same holds after the deferred exit that precedes the
advance in `loop()`, so the whole deferred drain returns. -/
theorem C20_pattern_read_safety (s : State) (hreach : Reachable s) :
    1 ≤ s.patternIt ∧ s.patternIt % 2 = 1 ∧
    (s.patternIt < s.patternLength →
      ∃ (buf : List Byte) (b : Byte),
        s.currentPattern = PatternPtr.live buf ∧ s.patternLength = (buf.length : Int) ∧
        0 ≤ s.patternIt ∧ s.patternIt.toNat < buf.length ∧
        buf[s.patternIt.toNat]? = some b) ∧
    (∃ s1 : State, loopExitAudio s = some s1 ∧
      (s1.patternIt < s1.patternLength →
        ∃ (buf : List Byte) (b : Byte),
          s1.currentPattern = PatternPtr.live buf ∧ s1.patternLength = (buf.length : Int) ∧
          0 ≤ s1.patternIt ∧ s1.patternIt.toNat < buf.length ∧
          buf[s1.patternIt.toNat]? = some b)) ∧
    (∃ s' : State, loopDeferred s = some s') := by
  have hinv := hreach.patInv
  obtain ⟨t, ht, b1, b2, b3, -⟩ := loopExitAudio_frame s
  have hinvt : PatInv t := patInv_of_same b1 b2 b3 hinv
  refine ⟨hinv.1, hinv.2.1, patInv_read s hinv, ⟨t, ht, patInv_read t hinvt⟩, ?_⟩
  simp only [loopDeferred, ht]
  exact loopPatternAdvance_total t hinvt

/-- Witness for C20: the reachable state with a pending advance at cursor 1
in a pattern of length 2. -/
theorem C20_pattern_read_safety_witness :
    advancePendingState.patternIt = 1 ∧ advancePendingState.patternLength = 2 ∧
    (∃ (buf : List Byte) (b : Byte),
      advancePendingState.currentPattern = PatternPtr.live buf ∧
      advancePendingState.patternLength = (buf.length : Int) ∧
      0 ≤ advancePendingState.patternIt ∧ advancePendingState.patternIt.toNat < buf.length ∧
      buf[advancePendingState.patternIt.toNat]? = some b) ∧
    (∃ s' : State, loopDeferred advancePendingState = some s') := by
  obtain ⟨-, -, h3, -, h5⟩ := C20_pattern_read_safety advancePendingState
    ⟨bootDrv, [Event.packet PacketType.VibrationPattern playPayload,
      Event.audioPlaybackTick], rfl⟩
  exact ⟨rfl, rfl, h3 (by decide), h5⟩

/-! ## The cursor arithmetic stays inside `int`

The cursor `patternIt` and the length `patternLength` are C `int`s, embedded
as integers without wrap-around. The lemmas below show that nothing is lost:
in every reachable state `patternLength` is an `int32_t` value and the only
arithmetic on the cursor, `patternIt += 2`, stays below 2^31. -/

theorem readInt32_range (data : List Byte) (off : Nat) (v : Int)
    (h : readInt32 data off = some v) : -2147483648 ≤ v ∧ v ≤ 2147483647 := by
  unfold readInt32 at h
  split at h
  · simp only [Option.some.injEq] at h
    subst h
    unfold toInt32
    omega
  · cases h

theorem replacePattern_length (s s' : State) (data : List Byte)
    (h : replacePattern s data = some s') : s'.patternLength ≤ 2147483647 := by
  unfold replacePattern at h
  split at h
  · cases h
  · split at h
    · cases h
    · next len hlen =>
        simp only at h
        split at h
        · cases h
        · split at h
          · cases h
          · cases h
            exact (readInt32_range _ _ _ hlen).2

theorem handleVibrationPatternPacket_length (s s' : State) (data : List Byte)
    (hle : s.patternLength ≤ 2147483647)
    (h : handleVibrationPatternPacket s data = some s') : s'.patternLength ≤ 2147483647 := by
  unfold handleVibrationPatternPacket at h
  split at h
  · cases h
  · simp only at h
    split at h
    · split at h
      · cases h
      · next s2 h2 =>
          have hs2 := replacePattern_length _ _ _ h2
          split at h
          · cases h
          · split at h
            · cases h
            · next s5 h5 =>
                cases h
                split at h5
                · obtain ⟨-, -, a3, -⟩ := handleVibrationSoundRequest_patSame _ _ _ h5
                  show s5.patternLength ≤ 2147483647
                  rw [a3]
                  exact hs2
                · cases h5
                  exact hs2
    · split at h
      · cases h
        exact hle
      · split at h
        · split at h <;> cases h <;> exact hle
        · cases h
          exact hle

theorem loopPatternAdvance_length (s s' : State) (h : loopPatternAdvance s = some s') :
    s'.patternLength = s.patternLength := by
  unfold loopPatternAdvance at h
  split at h
  · split at h
    · split at h
      · split at h
        · cases h
        · split at h
          · cases h
          · cases h
            rfl
      · cases h
    · cases h
      rfl
  · cases h
    rfl

theorem step_length (s s' : State) (e : Event) (hle : s.patternLength ≤ 2147483647)
    (h : step s e = some s') : s'.patternLength ≤ 2147483647 := by
  cases e with
  | packet packetType data =>
      simp only [step, handlePacket] at h
      split at h
      · rw [(handleTestPacket_patSame _ _ _ h).2.2]
        exact hle
      · split at h
        · unfold handleVibrationPacket at h
          split at h
          · cases h
          · obtain ⟨_, _, _, _, _, _, _, _, rfl⟩ := playVibrationEffects_outputOnly _ _ _ _ h
            exact hle
        · split at h
          · exact handleVibrationPatternPacket_length _ _ _ hle h
          · split at h
            · obtain ⟨-, -, -, -, a5⟩ := handleVibrationSound_spec _ _ _ h
              rcases a5 with ⟨-, -, c3⟩ | ⟨-, -, -, -, c3⟩
              · rw [c3]
                exact hle
              · rw [c3]
                decide
            · split at h
              · rw [(handleVibrationSoundRequest_patSame _ _ _ h).2.2.1]
                exact hle
              · split at h
                · rw [(handleRealtime_patSame _ _ _ h).2.2]
                  exact hle
                · cases h
                  exact hle
  | drain =>
      simp only [step, loopDeferred] at h
      split at h
      · cases h
      · next s1 h1 =>
          obtain ⟨t, ht, -, -, b3, -⟩ := loopExitAudio_frame s
          rw [h1] at ht
          cases ht
          rw [loopPatternAdvance_length _ _ h, b3]
          exact hle
  | chunkBufferTick =>
      simp only [step] at h
      split at h
      · obtain ⟨_, _, _, _, _, _, _, _, rfl⟩ := onChunkBufferTimer_outputOnly _ _ h
        exact hle
      · cases h
  | audioPlaybackTick =>
      simp only [step] at h
      split at h
      · obtain ⟨-, -, -, -, -, a6, -⟩ := onAudioPlaybackTimer_frame _ _ h
        rw [a6]
        exact hle
      · cases h
  | rendererDone i =>
      simp only [step] at h
      split at h
      · cases h
      · cases h
        exact hle

theorem run_length (es : List Event) :
    ∀ (s s' : State), s.patternLength ≤ 2147483647 → run s es = some s' →
      s'.patternLength ≤ 2147483647 := by
  induction es with
  | nil =>
      intro s s' hle h
      simp only [run, Option.some.injEq] at h
      exact h ▸ hle
  | cons e es ih =>
      intro s s' hle h
      simp only [run] at h
      split at h
      · cases h
      · next s1 h1 => exact ih s1 s' (step_length _ _ _ hle h1) h

/-- In every reachable state `patternLength` is an `int` value, and a cursor
advance `patternIt += 2` made there does not overflow. -/
theorem reachable_cursor_in_int (s : State) (hreach : Reachable s) :
    0 ≤ s.patternLength ∧ s.patternLength ≤ 2147483647 ∧
    (s.patternIt < s.patternLength → s.patternIt + 2 ≤ 2147483647) := by
  have hpat := hreach.patInv
  obtain ⟨d, es, hrun⟩ := hreach
  have hle : s.patternLength ≤ 2147483647 :=
    run_length es _ _ (by show (0 : Int) ≤ 2147483647; decide) hrun
  obtain ⟨h1, h2, h3⟩ := hpat
  refine ⟨?_, hle, fun hlt => by omega⟩
  cases hp : s.currentPattern with
  | null =>
      rw [hp] at h3
      exact le_of_eq h3.2.symm
  | dangling =>
      rw [hp] at h3
      exact le_of_eq h3.2.symm
  | live buf =>
      rw [hp] at h3
      have h3' : s.patternLength = (buf.length : Int) := h3
      omega

end Doki
